import Mathlib

/-!
Shallow embedding of the replaceableParts engine (src/engine.js, the version
with the 2-D grid placement subsystem) together with proofs about its
tick pipeline, command handlers and invariants.

Modelling conventions:
* JavaScript objects used as string-keyed dictionaries (inventory, machine
  buffers, market popularity, recipe inputs/outputs) are modelled as
  insertion-ordered association lists `List (String × α)`.  `obj[k] || 0`
  becomes `jsGet`, assignment `obj[k] = v` becomes `jsSet` (update in place
  when the key exists, append otherwise, matching JS key-insertion order),
  `delete obj[k]` becomes `jsDel`.
* JavaScript numbers are modelled as `Int` where the program only ever
  computes integers, and as `Rat` for the market / research quantities
  (popularity multipliers, probabilities, weights).  `Math.floor` becomes
  `Int.fdiv` / `Rat.floor`.
* The Mulberry32 generator works on 32-bit values; we model its state as the
  unsigned 32-bit pattern (a `Nat` reduced mod 2^32) and its bit operations
  with `Nat` xor / or / shifts and explicit `% 2^32`.
* `generateId` calls `Math.random()`, a source that is outside the engine
  state.  We model it as an ambient stream `ids : Nat → String` together
  with a cursor that advances each time an id is produced.
* `deepClone` is the identity on immutable values, so it is not represented.
* A `NaN` produced by `undefined - 0` on an absent inventory key is read
  back by every later engine access through `|| 0`; it is modelled as the
  value 0 stored under the key.
-/

/-! ### Association lists with JS object semantics -/

def jsLookup {α : Type} (l : List (String × α)) (k : String) : Option α :=
  match l.find? (fun p => p.1 == k) with
  | some p => some p.2
  | none => none

def jsGet (l : List (String × Int)) (k : String) : Int :=
  (jsLookup l k).getD 0

def jsSet {α : Type} (l : List (String × α)) (k : String) (v : α) : List (String × α) :=
  match l with
  | [] => [(k, v)]
  | p :: rest => if p.1 = k then (k, v) :: rest else p :: jsSet rest k v

def jsDel {α : Type} (l : List (String × α)) (k : String) : List (String × α) :=
  match l with
  | [] => []
  | p :: rest => if p.1 = k then rest else p :: jsDel rest k

/-! ### Mulberry32 (createRNG in engine.js) -/

def U32 : Nat := 4294967296

def imul32 (a b : Nat) : Nat := (a * b) % U32

/-- One `next()` call advances the seed: `currentSeed = currentSeed + 0x6D2B79F5 | 0`. -/
def mulberryStep (seed : Nat) : Nat := (seed % U32 + 0x6D2B79F5) % U32

/-- The output mixing of `next()` computed on the post-increment seed, returning
the 32-bit numerator of the result (the value before division by 2^32). -/
def mulberryMix (s : Nat) : Nat :=
  let t1 := imul32 (Nat.xor s (s >>> 15)) (s ||| 1)
  let t2 := Nat.xor ((t1 + imul32 (Nat.xor t1 (t1 >>> 7)) (t1 ||| 61)) % U32) t1
  Nat.xor t2 (t2 >>> 14)

/-- `rng.next()`: new seed together with the drawn value in `[0,1)`. -/
def rngNext (seed : Nat) : Nat × Rat :=
  let s := mulberryStep seed
  (s, (mulberryMix s : Rat) / (U32 : Rat))

/-! ### Data model -/

structure Placement where
  id : String
  x : Int
  y : Int
  size : Int
  kind : String
deriving DecidableEq, Repr

structure FloorSpace where
  width : Int
  height : Int
  placements : List Placement
deriving DecidableEq, Repr

structure Energy where
  produced : Int
  consumed : Int
deriving DecidableEq, Repr

structure Machine where
  id : String
  recipeId : Option String
  internalBuffer : List (String × Int)
  status : String
  enabled : Bool
  spaceUsed : Int
  energyConsumption : Int
  x : Int
  y : Int
deriving DecidableEq, Repr

structure Generator where
  id : String
  genType : String
  energyOutput : Int
  spaceUsed : Int
  x : Int
  y : Int
deriving DecidableEq, Repr

structure ExtractionNode where
  id : String
  resourceType : String
  rate : Int
  active : Bool
deriving DecidableEq, Repr

structure ResearchState where
  active : Bool
deriving DecidableEq, Repr

structure GameState where
  tick : Int
  rngSeed : Nat
  credits : Int
  floorSpace : FloorSpace
  energy : Energy
  inventorySpace : Int
  inventory : List (String × Int)
  machines : List Machine
  generators : List Generator
  extractionNodes : List ExtractionNode
  discoveredRecipes : List String
  unlockedRecipes : List String
  research : ResearchState
  marketPopularity : List (String × Rat)
deriving DecidableEq, Repr

structure Material where
  id : String
  name : String
  basePrice : Int
  category : String
  weight : Int
deriving DecidableEq, Repr

structure Recipe where
  id : String
  inputs : List (String × Int)
  outputs : List (String × Int)
  energyRequired : Int
  ticksToComplete : Int
  tier : Int
deriving DecidableEq, Repr

structure MarketRules where
  noveltyBonus : Rat
  decayRate : Rat
  recoveryRate : Rat
  minPopularity : Rat
  maxPopularity : Rat
deriving DecidableEq, Repr

structure ResearchRules where
  energyCost : Int
  discoveryChance : Rat
  proximityWeight : Rat
deriving DecidableEq, Repr

structure MachineRules where
  itemId : String
  baseSpace : Int
  baseEnergy : Int
deriving DecidableEq, Repr

structure GeneratorType where
  id : String
  itemId : String
  name : String
  energyOutput : Int
  spaceCost : Int
deriving DecidableEq, Repr

structure GeneratorRules where
  types : List GeneratorType
deriving DecidableEq, Repr

structure FloorSpaceRules where
  initialWidth : Int
  initialChunkSize : Int
  costPerCell : Int
deriving DecidableEq, Repr

structure InventorySpaceRules where
  baseCost : Rat
  costGrowth : Rat
  upgradeAmount : Int
deriving DecidableEq, Repr

structure Rules where
  materials : List Material
  recipes : List Recipe
  market : MarketRules
  research : ResearchRules
  machines : MachineRules
  generators : GeneratorRules
  floorSpace : FloorSpaceRules
  inventorySpace : InventorySpaceRules
deriving DecidableEq, Repr

/-! ### Utility functions (engine.js) -/

def getItemWeight (itemId : String) (rules : Rules) : Int :=
  match rules.materials.find? (fun m => m.id == itemId) with
  | some material => material.weight
  | none => 1

def getMaxStack (itemId : String) (inventoryCapacity : Int) (rules : Rules) : Int :=
  Int.fdiv inventoryCapacity (getItemWeight itemId rules)

/-! ### Grid placement utilities -/

/-- Floor integer square root by counting the roots up to `n`; agrees with
`Math.sqrt` on the perfect-square space costs used by the rules, and reduces
structurally inside the kernel. -/
def isqrt (n : Nat) : Nat :=
  ((List.range (n + 1)).filter (fun k => decide (k * k ≤ n))).length - 1

/-- `Math.sqrt(spaceCost)` for the perfect-square space costs used by the rules. -/
def getStructureSize (spaceCost : Int) : Int :=
  (isqrt spaceCost.toNat : Nat)

def isWithinBounds (x y size width height : Int) : Bool :=
  decide (0 ≤ x) && decide (0 ≤ y) && decide (x + size ≤ width) && decide (y + size ≤ height)

def overlapTest (x y size : Int) (p : Placement) : Bool :=
  let noOverlap :=
    decide (x + size ≤ p.x) || decide (p.x + p.size ≤ x) ||
    decide (y + size ≤ p.y) || decide (p.y + p.size ≤ y)
  !noOverlap

def isColliding (x y size : Int) (placements : List Placement) : Bool :=
  placements.any (overlapTest x y size)

structure PlaceCheck where
  valid : Bool
  error : Option String
deriving DecidableEq, Repr

def canPlaceAt (state : GameState) (x y size : Int) : PlaceCheck :=
  if isWithinBounds x y size state.floorSpace.width state.floorSpace.height = false then
    { valid := false, error := some "Position out of bounds" }
  else if isColliding x y size state.floorSpace.placements then
    { valid := false, error := some "Position collides with existing structure" }
  else
    { valid := true, error := none }

structure ExpansionChunk where
  chunkSize : Int
  newWidth : Int
  newHeight : Int
  cellsAdded : Int
  cost : Int
  expandWidth : Bool
deriving DecidableEq, Repr

/-- The `while (width >= targetSquare && height >= targetSquare)` loop of
`getNextExpansionChunk`, fueled by the number of remaining doublings (the loop
terminates in JS because the target doubles past the fixed dimensions). -/
def expansionLoop (fuel : Nat) (width height chunkSize targetSquare : Int) : Int × Int :=
  match fuel with
  | 0 => (chunkSize, targetSquare)
  | fuel + 1 =>
    if targetSquare ≤ width ∧ targetSquare ≤ height then
      expansionLoop fuel width height (chunkSize * 2) (targetSquare * 2)
    else
      (chunkSize, targetSquare)

def getNextExpansionChunk (state : GameState) (rules : Rules) : ExpansionChunk :=
  let width := state.floorSpace.width
  let height := state.floorSpace.height
  let ct :=
    expansionLoop (width.toNat + height.toNat + 1) width height
      rules.floorSpace.initialChunkSize (rules.floorSpace.initialWidth * 2)
  let chunkSize := ct.1
  let targetSquare := ct.2
  let expandWidth : Bool := decide (width < targetSquare)
  let newWidth := if expandWidth then width + chunkSize else width
  let newHeight := if expandWidth then height else height + chunkSize
  let cellsAdded := chunkSize * chunkSize
  { chunkSize := chunkSize
    newWidth := newWidth
    newHeight := newHeight
    cellsAdded := cellsAdded
    cost := cellsAdded * rules.floorSpace.costPerCell
    expandWidth := expandWidth }

/-! ### Energy -/

def eligibleMachine (m : Machine) : Bool :=
  m.enabled && m.recipeId.isSome && m.status != "blocked"

def calculateEnergy (state : GameState) (_rules : Rules) : Energy :=
  { produced := state.generators.foldl (fun sum g => sum + g.energyOutput) 0
    consumed := state.machines.foldl
      (fun sum m => if eligibleMachine m then sum + m.energyConsumption else sum) 0 }

/-! ### Power allocation (step 1 of simulateTick) -/

/-- The deficit loop `for (let i = machines.length - 1; i >= 0 && deficit > 0; i--)`:
machines are visited from the end of the creation-ordered list; an eligible
(enabled, assigned, not blocked) machine is marked blocked and its draw is
subtracted from the deficit, until the deficit is no longer positive. -/
def blockFromEnd (deficit : Int) : List Machine → Int × List Machine
  | [] => (deficit, [])
  | m :: rest =>
    let p := blockFromEnd deficit rest
    if 0 < p.1 ∧ eligibleMachine m then
      (p.1 - m.energyConsumption, { m with status := "blocked" } :: p.2)
    else
      (p.1, m :: p.2)

def allocatePower (state : GameState) (rules : Rules) : GameState :=
  let energy := calculateEnergy state rules
  let st := { state with energy := energy }
  if energy.produced < energy.consumed then
    let st' := { st with machines := (blockFromEnd (energy.consumed - energy.produced) st.machines).2 }
    { st' with energy := calculateEnergy st' rules }
  else
    st

/-! ### Extraction phase (step 2) -/

def extractOne (rules : Rules) (capacity : Int) (inv : List (String × Int))
    (node : ExtractionNode) : List (String × Int) :=
  if node.active then
    let currentAmount := jsGet inv node.resourceType
    let maxStack := getMaxStack node.resourceType capacity rules
    let spaceLeft := maxStack - currentAmount
    let toAdd := min node.rate spaceLeft
    if 0 < toAdd then jsSet inv node.resourceType (currentAmount + toAdd) else inv
  else
    inv

def extractionPhase (rules : Rules) (capacity : Int) (nodes : List ExtractionNode)
    (inv : List (String × Int)) : List (String × Int) :=
  nodes.foldl (extractOne rules capacity) inv

/-! ### Machine processing (step 3) -/

/-- Pull phase for one recipe input `(itemId, needed)`:
move `min(needed - inBuffer, available)` from the inventory into the buffer. -/
def pullOne (acc : List (String × Int) × List (String × Int)) (input : String × Int) :
    List (String × Int) × List (String × Int) :=
  let (inv, buffer) := acc
  let (itemId, needed) := input
  let inBuffer := jsGet buffer itemId
  let stillNeeded := needed - inBuffer
  if 0 < stillNeeded then
    let available := jsGet inv itemId
    let toPull := min stillNeeded available
    if 0 < toPull then
      (jsSet inv itemId (available - toPull), jsSet buffer itemId (inBuffer + toPull))
    else
      (inv, buffer)
  else
    (inv, buffer)

def pullPhase (inv buffer : List (String × Int)) (inputs : List (String × Int)) :
    List (String × Int) × List (String × Int) :=
  inputs.foldl pullOne (inv, buffer)

def bufferComplete (buffer : List (String × Int)) (inputs : List (String × Int)) : Bool :=
  inputs.all (fun p => decide (p.2 ≤ jsGet buffer p.1))

/-- All-or-nothing output capacity check: every output item must have
`maxStack - current >= quantity` remaining space. -/
def canProduce (inv : List (String × Int)) (capacity : Int) (rules : Rules)
    (outputs : List (String × Int)) : Bool :=
  outputs.all (fun p => decide (p.2 ≤ getMaxStack p.1 capacity rules - jsGet inv p.1))

/-- `machine.internalBuffer[itemId] -= needed; if 0, delete` over all inputs. -/
def consumeBuffer (buffer : List (String × Int)) (inputs : List (String × Int)) :
    List (String × Int) :=
  inputs.foldl
    (fun b p =>
      let v := jsGet b p.1 - p.2
      if v = 0 then jsDel b p.1 else jsSet b p.1 v)
    buffer

/-- `inventory[itemId] = (inventory[itemId] || 0) + quantity` over all outputs. -/
def addOutputs (inv : List (String × Int)) (outputs : List (String × Int)) :
    List (String × Int) :=
  outputs.foldl (fun i p => jsSet i p.1 (jsGet i p.1 + p.2)) inv

/-- Completion attempt once the pull phase is done: if the buffer meets every
input requirement, and every output fits, debit the inputs from the buffer and
credit the outputs to the inventory; otherwise leave both untouched. -/
def completeStage (capacity : Int) (rules : Rules) (inv buffer : List (String × Int))
    (recipe : Recipe) : List (String × Int) × List (String × Int) :=
  if bufferComplete buffer recipe.inputs then
    if canProduce inv capacity rules recipe.outputs then
      (addOutputs inv recipe.outputs, consumeBuffer buffer recipe.inputs)
    else
      (inv, buffer)
  else
    (inv, buffer)

def processMachine (rules : Rules) (capacity : Int) (unlocked : List String)
    (inv : List (String × Int)) (m : Machine) : List (String × Int) × Machine :=
  if !m.enabled || m.recipeId.isNone || m.status == "blocked" then
    (inv, m)
  else
    match rules.recipes.find? (fun r => m.recipeId == some r.id) with
    | none => (inv, { m with status := "idle" })
    | some recipe =>
      if !(unlocked.contains recipe.id) then
        (inv, { m with status := "idle" })
      else
        let m1 : Machine := { m with status := "working" }
        let pulled := pullPhase inv m1.internalBuffer recipe.inputs
        let done := completeStage capacity rules pulled.1 pulled.2 recipe
        (done.1, { m1 with internalBuffer := done.2 })

def machinePhase (rules : Rules) (capacity : Int) (unlocked : List String) :
    List (String × Int) → List Machine → List (String × Int) × List Machine
  | inv, [] => (inv, [])
  | inv, m :: rest =>
    let step := processMachine rules capacity unlocked inv m
    let tail := machinePhase rules capacity unlocked step.1 rest
    (tail.1, step.2 :: tail.2)

/-! ### Research phase (step 4) -/

/-- Weight of an undiscovered recipe: 1 plus the proximity weight for each
distinct input item currently present in the inventory with quantity > 0. -/
def recipeWeight (rules : Rules) (inv : List (String × Int)) (r : Recipe) : Rat :=
  r.inputs.foldl
    (fun w p => if 0 < jsGet inv p.1 then w + rules.research.proximityWeight else w) 1

/-- `selection -= weight; if (selection <= 0) break` walk over the weighted
undiscovered recipes, in rule-table order. -/
def selectRecipe (selection : Rat) : List (Recipe × Rat) → Option Recipe
  | [] => none
  | (r, w) :: rest =>
    if selection - w ≤ 0 then some r else selectRecipe (selection - w) rest

def researchPhase (rules : Rules) (st : GameState) (seed : Nat) : GameState × Nat :=
  let spareEnergy := st.energy.produced - st.energy.consumed
  if st.research.active ∧ rules.research.energyCost ≤ spareEnergy then
    let draw1 := rngNext seed
    let undiscovered := rules.recipes.filter (fun r => !(st.discoveredRecipes.contains r.id))
    if 0 < undiscovered.length ∧ draw1.2 < rules.research.discoveryChance then
      let weighted := undiscovered.map (fun r => (r, recipeWeight rules st.inventory r))
      let totalWeight := weighted.foldl (fun sum p => sum + p.2) 0
      let draw2 := rngNext draw1.1
      match selectRecipe (draw2.2 * totalWeight) weighted with
      | some r => ({ st with discoveredRecipes := st.discoveredRecipes ++ [r.id] }, draw2.1)
      | none => (st, draw2.1)
    else
      (st, draw1.1)
  else
    (st, seed)

/-! ### Market recovery (step 5) -/

/-- The `soldThisTick` set is declared but never populated before this phase
runs, so every tracked item recovers unconditionally. -/
def marketRecovery (rules : Rules) (pop : List (String × Rat)) : List (String × Rat) :=
  pop.map (fun p => (p.1, min rules.market.maxPopularity (p.2 + rules.market.recoveryRate)))

/-! ### simulateTick -/

/-- State after power allocation and the extraction phase (steps 1-2). -/
def tickStage2 (state : GameState) (rules : Rules) : GameState :=
  let st1 := allocatePower state rules
  { st1 with
    inventory := extractionPhase rules st1.inventorySpace st1.extractionNodes st1.inventory }

/-- State after machine processing (steps 1-3). -/
def tickStage3 (state : GameState) (rules : Rules) : GameState :=
  let st2 := tickStage2 state rules
  let mp :=
    machinePhase rules st2.inventorySpace st2.unlockedRecipes st2.inventory st2.machines
  { st2 with inventory := mp.1, machines := mp.2 }

def simulateTick (state : GameState) (rules : Rules) : GameState :=
  let st3 := tickStage3 state rules
  let rp := researchPhase rules st3 state.rngSeed
  let st5 := { rp.1 with marketPopularity := marketRecovery rules rp.1.marketPopularity }
  { st5 with tick := st5.tick + 1, rngSeed := rp.2 }

/-! ### Action handlers -/

structure EngineResult where
  state : GameState
  error : Option String
deriving DecidableEq, Repr

def materialName (rules : Rules) (itemId : String) : String :=
  match rules.materials.find? (fun m => m.id == itemId) with
  | some material => material.name
  | none => itemId

/-- `inventory[k] -= 1; if (inventory[k] === 0) delete inventory[k]`
(only reached when `inventory[k] >= 1`, hence the key is present). -/
def consumeOne (inv : List (String × Int)) (k : String) : List (String × Int) :=
  let v := jsGet inv k - 1
  if v = 0 then jsDel inv k else jsSet inv k v

def addMachine (state : GameState) (rules : Rules) (x? y? : Option Int)
    (freshId : String) : EngineResult :=
  match x?, y? with
  | some x, some y =>
    let size := getStructureSize rules.machines.baseSpace
    let placement := canPlaceAt state x y size
    if placement.valid = false then
      { state := state, error := placement.error }
    else
      let requiredItemId := rules.machines.itemId
      let available := jsGet state.inventory requiredItemId
      if available < 1 then
        { state := state
          error := some ("Need 1 " ++ materialName rules requiredItemId ++
            " in inventory to deploy a machine") }
      else
        let inv := consumeOne state.inventory requiredItemId
        let newMachine : Machine :=
          { id := freshId, recipeId := none, internalBuffer := [], status := "idle"
            enabled := true, spaceUsed := rules.machines.baseSpace
            energyConsumption := rules.machines.baseEnergy, x := x, y := y }
        let newPlacement : Placement :=
          { id := freshId, x := x, y := y, size := size, kind := "machine" }
        { state := { state with
            inventory := inv
            machines := state.machines ++ [newMachine]
            floorSpace := { state.floorSpace with
              placements := state.floorSpace.placements ++ [newPlacement] } }
          error := none }
  | _, _ => { state := state, error := some "Position (x, y) is required" }

/-- `findIndex` + `splice(i, 1)`. -/
def removeAt {α : Type} (l : List α) (f : α → Bool) : List α :=
  match l.findIdx? f with
  | some i => l.eraseIdx i
  | none => l

def returnBuffer (inv : List (String × Int)) (buffer : List (String × Int)) :
    List (String × Int) :=
  buffer.foldl (fun i p => jsSet i p.1 (jsGet i p.1 + p.2)) inv

def removeMachine (state : GameState) (_rules : Rules) (machineId : String) : EngineResult :=
  match state.machines.find? (fun m => m.id == machineId) with
  | none => { state := state, error := some "Machine not found" }
  | some machine =>
    { state := { state with
        inventory := returnBuffer state.inventory machine.internalBuffer
        machines := removeAt state.machines (fun m => m.id == machineId)
        floorSpace := { state.floorSpace with
          placements := removeAt state.floorSpace.placements (fun p => p.id == machineId) } }
      error := none }

def assignRecipe (state : GameState) (rules : Rules) (machineId : String)
    (recipeId : Option String) : EngineResult :=
  match state.machines.find? (fun m => m.id == machineId) with
  | none => { state := state, error := some "Machine not found" }
  | some _ =>
    let checkRecipe : Option String :=
      match recipeId with
      | none => none
      | some rid =>
        if (rules.recipes.find? (fun r => r.id == rid)).isNone then
          some "Recipe not found"
        else if !(state.unlockedRecipes.contains rid) then
          some "Recipe not unlocked"
        else
          none
    match checkRecipe with
    | some e => { state := state, error := some e }
    | none =>
      { state := { state with
          inventory := state.machines.foldl
            (fun i m => if m.id == machineId then returnBuffer i m.internalBuffer else i)
            state.inventory
          machines := state.machines.map (fun (m : Machine) =>
            if m.id == machineId then
              { m with recipeId := recipeId, internalBuffer := []
                       status := if recipeId.isSome then "working" else "idle" }
            else m) }
        error := none }

def addGenerator (state : GameState) (rules : Rules) (generatorType : String)
    (x? y? : Option Int) (freshId : String) : EngineResult :=
  match x?, y? with
  | some x, some y =>
    match rules.generators.types.find? (fun g => g.id == generatorType) with
    | none => { state := state, error := some "Generator type not found" }
    | some genConfig =>
      let size := getStructureSize genConfig.spaceCost
      let placement := canPlaceAt state x y size
      if placement.valid = false then
        { state := state, error := placement.error }
      else
        let requiredItemId := genConfig.itemId
        let available := jsGet state.inventory requiredItemId
        if available < 1 then
          { state := state
            error := some ("Need 1 " ++ materialName rules requiredItemId ++
              " in inventory to deploy this generator") }
        else
          let inv := consumeOne state.inventory requiredItemId
          let newGenerator : Generator :=
            { id := freshId, genType := generatorType
              energyOutput := genConfig.energyOutput, spaceUsed := genConfig.spaceCost
              x := x, y := y }
          let newPlacement : Placement :=
            { id := freshId, x := x, y := y, size := size, kind := "generator" }
          let st := { state with
            inventory := inv
            generators := state.generators ++ [newGenerator]
            floorSpace := { state.floorSpace with
              placements := state.floorSpace.placements ++ [newPlacement] } }
          { state := { st with energy := calculateEnergy st rules }, error := none }
  | _, _ => { state := state, error := some "Position (x, y) is required" }

def removeGenerator (state : GameState) (rules : Rules) (generatorId : String) : EngineResult :=
  match state.generators.find? (fun g => g.id == generatorId) with
  | none => { state := state, error := some "Generator not found" }
  | some _ =>
    let st := { state with
      generators := removeAt state.generators (fun g => g.id == generatorId)
      floorSpace := { state.floorSpace with
        placements := removeAt state.floorSpace.placements (fun p => p.id == generatorId) } }
    { state := { st with energy := calculateEnergy st rules }, error := none }

def buyFloorSpace (state : GameState) (rules : Rules) : EngineResult :=
  let expansion := getNextExpansionChunk state rules
  if state.credits < expansion.cost then
    { state := state
      error := some ("Not enough credits (need " ++ toString expansion.cost ++ ")") }
  else
    { state := { state with
        credits := state.credits - expansion.cost
        floorSpace := { state.floorSpace with
          width := expansion.newWidth, height := expansion.newHeight } }
      error := none }

/-- `marketPopularity[itemId] || 1.0`: a stored 0 is falsy in JS and is
replaced by the default, exactly like an absent key. -/
def popOrDefault (pop : Option Rat) : Rat :=
  match pop with
  | some v => if v = 0 then 1 else v
  | none => 1

def sellGoods (state : GameState) (rules : Rules) (itemId : String) (quantity : Int) :
    EngineResult :=
  let available := jsGet state.inventory itemId
  if available < quantity then
    { state := state, error := some "Not enough items in inventory" }
  else
    match rules.materials.find? (fun m => m.id == itemId) with
    | none => { state := state, error := some "Item not found in materials list" }
    | some material =>
      let popularity := popOrDefault (jsLookup state.marketPopularity itemId)
      let totalCredits := Rat.floor ((material.basePrice : Rat) * popularity * (quantity : Rat))
      let inv :=
        match jsLookup state.inventory itemId with
        | some v => if v - quantity = 0 then jsDel state.inventory itemId
                    else jsSet state.inventory itemId (v - quantity)
        | none => jsSet state.inventory itemId 0
      let pop1 :=
        match jsLookup state.marketPopularity itemId with
        | some v => if v = 0 then jsSet state.marketPopularity itemId rules.market.maxPopularity
                    else state.marketPopularity
        | none => jsSet state.marketPopularity itemId rules.market.maxPopularity
      let current := (jsLookup pop1 itemId).getD 0
      let pop2 := jsSet pop1 itemId
        (max rules.market.minPopularity (current - rules.market.decayRate * (quantity : Rat)))
      { state := { state with
          inventory := inv
          credits := state.credits + totalCredits
          marketPopularity := pop2 }
        error := none }

def toggleResearch (state : GameState) (rules : Rules) (active : Bool) : EngineResult :=
  let st := { state with research := { active := active } }
  { state := { st with energy := calculateEnergy st rules }, error := none }

def unlockRecipe (state : GameState) (_rules : Rules) (recipeId : String) : EngineResult :=
  if !(state.discoveredRecipes.contains recipeId) then
    { state := state, error := some "Recipe not discovered yet" }
  else if state.unlockedRecipes.contains recipeId then
    { state := state, error := some "Recipe already unlocked" }
  else
    { state := { state with unlockedRecipes := state.unlockedRecipes ++ [recipeId] }
      error := none }

def unblockMachine (state : GameState) (rules : Rules) (machineId : String) : EngineResult :=
  match state.machines.find? (fun m => m.id == machineId) with
  | none => { state := state, error := some "Machine not found" }
  | some machine =>
    if machine.status != "blocked" then
      { state := state, error := some "Machine is not blocked" }
    else
      let st := { state with
        machines := state.machines.map (fun (m : Machine) =>
          if m.id == machineId then
            { m with status := if m.recipeId.isSome then "working" else "idle" }
          else m) }
      { state := { st with energy := calculateEnergy st rules }, error := none }

def toggleMachine (state : GameState) (rules : Rules) (machineId : String) : EngineResult :=
  match state.machines.find? (fun m => m.id == machineId) with
  | none => { state := state, error := some "Machine not found" }
  | some _ =>
    let st := { state with
      machines := state.machines.map (fun (m : Machine) =>
        if m.id == machineId then { m with enabled := !m.enabled } else m) }
    { state := { st with energy := calculateEnergy st rules }, error := none }

def buyInventorySpace (state : GameState) (rules : Rules) : EngineResult :=
  let currentLevel := Int.fdiv state.inventorySpace rules.inventorySpace.upgradeAmount
  let cost := Rat.floor (rules.inventorySpace.baseCost *
    rules.inventorySpace.costGrowth ^ currentLevel.toNat)
  if state.credits < cost then
    { state := state, error := some ("Not enough credits (need " ++ toString cost ++ ")") }
  else
    { state := { state with
        credits := state.credits - cost
        inventorySpace := state.inventorySpace + rules.inventorySpace.upgradeAmount }
      error := none }

/-! ### Dispatcher -/

inductive Command where
  | SIMULATE
  | ADD_MACHINE (x y : Option Int)
  | REMOVE_MACHINE (machineId : String)
  | ASSIGN_RECIPE (machineId : String) (recipeId : Option String)
  | ADD_GENERATOR (generatorType : String) (x y : Option Int)
  | REMOVE_GENERATOR (generatorId : String)
  | BUY_FLOOR_SPACE
  | SELL_GOODS (itemId : String) (quantity : Int)
  | TOGGLE_RESEARCH (active : Bool)
  | UNLOCK_RECIPE (recipeId : String)
  | UNBLOCK_MACHINE (machineId : String)
  | TOGGLE_MACHINE (machineId : String)
  | BUY_INVENTORY_SPACE
  | UNKNOWN (tag : String)
deriving DecidableEq, Repr

/-- The engine dispatcher.  `ids`/`cursor` model the ambient `Math.random()`
id source: building a machine or a generator consumes the next id. -/
def engine (state : GameState) (rules : Rules) (action : Command)
    (ids : Nat → String) (cursor : Nat) : EngineResult × Nat :=
  match action with
  | .SIMULATE => ({ state := simulateTick state rules, error := none }, cursor)
  | .ADD_MACHINE x y =>
    let r := addMachine state rules x y (ids cursor)
    (r, if r.error = none then cursor + 1 else cursor)
  | .REMOVE_MACHINE machineId => (removeMachine state rules machineId, cursor)
  | .ASSIGN_RECIPE machineId recipeId => (assignRecipe state rules machineId recipeId, cursor)
  | .ADD_GENERATOR generatorType x y =>
    let r := addGenerator state rules generatorType x y (ids cursor)
    (r, if r.error = none then cursor + 1 else cursor)
  | .REMOVE_GENERATOR generatorId => (removeGenerator state rules generatorId, cursor)
  | .BUY_FLOOR_SPACE => (buyFloorSpace state rules, cursor)
  | .SELL_GOODS itemId quantity => (sellGoods state rules itemId quantity, cursor)
  | .TOGGLE_RESEARCH active => (toggleResearch state rules active, cursor)
  | .UNLOCK_RECIPE recipeId => (unlockRecipe state rules recipeId, cursor)
  | .UNBLOCK_MACHINE machineId => (unblockMachine state rules machineId, cursor)
  | .TOGGLE_MACHINE machineId => (toggleMachine state rules machineId, cursor)
  | .BUY_INVENTORY_SPACE => (buyInventorySpace state rules, cursor)
  | .UNKNOWN tag => ({ state := state, error := some ("Unknown action type: " ++ tag) }, cursor)

/-- Replaying a command sequence against a state: each step feeds the
resulting state (changed or unchanged) to the next command. -/
def engineRun (rules : Rules) (ids : Nat → String) :
    GameState → Nat → List Command → GameState
  | state, _, [] => state
  | state, cursor, action :: rest =>
    let step := engine state rules action ids cursor
    engineRun rules ids step.1.state step.2 rest

/-! ### Concrete fixtures used by witnesses and counterexamples -/

def testRules : Rules :=
  { materials :=
      [ { id := "wood", name := "Wood", basePrice := 2, category := "raw", weight := 1 }
      , { id := "planks", name := "Planks", basePrice := 5, category := "intermediate", weight := 2 }
      , { id := "production_machine", name := "Production Machine", basePrice := 100
        , category := "equipment", weight := 20 }
      , { id := "manual_crank", name := "Manual Crank", basePrice := 30
        , category := "equipment", weight := 8 } ]
    recipes :=
      [ { id := "planks", inputs := [("wood", 2)], outputs := [("planks", 1)]
        , energyRequired := 1, ticksToComplete := 1, tier := 1 } ]
    market := { noveltyBonus := mkRat 2 1, decayRate := mkRat 1 20, recoveryRate := mkRat 1 50
                minPopularity := mkRat 1 2, maxPopularity := mkRat 2 1 }
    research := { energyCost := 3, discoveryChance := mkRat 3 20, proximityWeight := mkRat 1 2 }
    machines := { itemId := "production_machine", baseSpace := 4, baseEnergy := 2 }
    generators := { types :=
      [ { id := "manual_crank", itemId := "manual_crank", name := "Manual Crank"
        , energyOutput := 3, spaceCost := 1 } ] }
    floorSpace := { initialWidth := 8, initialChunkSize := 8, costPerCell := 1 }
    inventorySpace := { baseCost := mkRat 50 1, costGrowth := mkRat 3 2, upgradeAmount := 50 } }

def baseState : GameState :=
  { tick := 0, rngSeed := 12345, credits := 500
    floorSpace := { width := 8, height := 8, placements := [] }
    energy := { produced := 3, consumed := 0 }
    inventorySpace := 100
    inventory := []
    machines := []
    generators :=
      [ { id := "g1", genType := "manual_crank", energyOutput := 3, spaceUsed := 1
        , x := 0, y := 0 } ]
    extractionNodes := [ { id := "n1", resourceType := "wood", rate := 2, active := true } ]
    discoveredRecipes := ["planks"]
    unlockedRecipes := ["planks"]
    research := { active := false }
    marketPopularity := [] }

def idsA : Nat → String := fun _ => "a"

def idsB : Nat → String := fun _ => "b"

/-! ### Lemmas about the association-list operations -/

theorem jsLookup_cons {α : Type} (p : String × α) (l : List (String × α)) (j : String) :
    jsLookup (p :: l) j = if p.1 = j then some p.2 else jsLookup l j := by
  by_cases h : p.1 = j <;> simp [jsLookup, List.find?_cons, h]

theorem jsLookup_eq_none {α : Type} {l : List (String × α)} {k : String}
    (h : k ∉ l.map Prod.fst) : jsLookup l k = none := by
  induction l with
  | nil => rfl
  | cons p rest ih =>
    simp only [List.map_cons, List.mem_cons] at h
    push_neg at h
    rw [jsLookup_cons, if_neg (fun c => h.1 c.symm)]
    exact ih h.2

theorem jsLookup_jsSet {α : Type} (l : List (String × α)) (k : String) (v : α) (j : String) :
    jsLookup (jsSet l k v) j = if j = k then some v else jsLookup l j := by
  induction l with
  | nil =>
    simp only [jsSet, jsLookup_cons]
    by_cases h : j = k
    · rw [if_pos h.symm, if_pos h]
    · rw [if_neg (fun c => h c.symm), if_neg h]
  | cons q rest ih =>
    obtain ⟨a, b⟩ := q
    simp only [jsSet]
    by_cases hak : a = k
    · by_cases hjk : j = k
      · simp [hak, hjk, jsLookup_cons]
      · have hkj : ¬ k = j := fun c => hjk c.symm
        simp [hak, hjk, hkj, jsLookup_cons]
    · by_cases haj : a = j
      · have hjk : ¬ j = k := fun c => hak (by rw [haj, c])
        simp [hak, haj, hjk, jsLookup_cons]
      · simp [hak, haj, jsLookup_cons, ih]

theorem jsLookup_jsDel_ne {α : Type} (l : List (String × α)) (k j : String) (h : j ≠ k) :
    jsLookup (jsDel l k) j = jsLookup l j := by
  induction l with
  | nil => rfl
  | cons p rest ih =>
    obtain ⟨a, b⟩ := p
    simp only [jsDel]
    by_cases hak : a = k
    · have hkj : ¬ k = j := fun c => h c.symm
      simp [hak, jsLookup_cons, hkj]
    · simp [hak, jsLookup_cons, ih]

theorem jsLookup_jsDel_self {α : Type} (l : List (String × α)) (k : String)
    (hn : (l.map Prod.fst).Nodup) : jsLookup (jsDel l k) k = none := by
  induction l with
  | nil => rfl
  | cons p rest ih =>
    obtain ⟨a, b⟩ := p
    simp only [List.map_cons, List.nodup_cons] at hn
    simp only [jsDel]
    by_cases hak : a = k
    · rw [if_pos hak]
      exact jsLookup_eq_none (hak ▸ hn.1)
    · rw [if_neg hak, jsLookup_cons, if_neg hak]
      exact ih hn.2

theorem jsLookup_mem {α : Type} {l : List (String × α)} {k : String} {v : α}
    (h : jsLookup l k = some v) : (k, v) ∈ l := by
  induction l with
  | nil => simp [jsLookup] at h
  | cons p rest ih =>
    obtain ⟨a, b⟩ := p
    rw [jsLookup_cons] at h
    by_cases hak : a = k
    · rw [if_pos hak] at h
      have hbv : b = v := Option.some.inj h
      subst hbv
      subst hak
      exact List.mem_cons_self _ _
    · rw [if_neg hak] at h
      exact List.mem_cons_of_mem _ (ih h)

theorem mem_jsSet {α : Type} {l : List (String × α)} {k : String} {v : α} {p : String × α}
    (h : p ∈ jsSet l k v) : p = (k, v) ∨ p ∈ l := by
  induction l with
  | nil =>
    simp [jsSet] at h
    exact Or.inl h
  | cons q rest ih =>
    obtain ⟨a, b⟩ := q
    simp only [jsSet] at h
    by_cases hak : a = k
    · rw [if_pos hak] at h
      rcases List.mem_cons.1 h with h' | h'
      · exact Or.inl h'
      · exact Or.inr (List.mem_cons_of_mem _ h')
    · rw [if_neg hak] at h
      rcases List.mem_cons.1 h with h' | h'
      · exact Or.inr (h' ▸ List.mem_cons_self _ _)
      · rcases ih h' with h'' | h''
        · exact Or.inl h''
        · exact Or.inr (List.mem_cons_of_mem _ h'')

theorem mem_jsDel {α : Type} {l : List (String × α)} {k : String} {p : String × α}
    (h : p ∈ jsDel l k) : p ∈ l := by
  induction l with
  | nil => simp [jsDel] at h
  | cons q rest ih =>
    obtain ⟨a, b⟩ := q
    simp only [jsDel] at h
    by_cases hak : a = k
    · rw [if_pos hak] at h
      exact List.mem_cons_of_mem _ h
    · rw [if_neg hak] at h
      rcases List.mem_cons.1 h with h' | h'
      · exact h' ▸ List.mem_cons_self _ _
      · exact List.mem_cons_of_mem _ (ih h')

theorem nodupKeys_jsSet {α : Type} {l : List (String × α)} (k : String) (v : α)
    (hn : (l.map Prod.fst).Nodup) : ((jsSet l k v).map Prod.fst).Nodup := by
  induction l with
  | nil => simp [jsSet]
  | cons q rest ih =>
    obtain ⟨a, b⟩ := q
    simp only [List.map_cons, List.nodup_cons] at hn
    simp only [jsSet]
    by_cases hak : a = k
    · rw [if_pos hak]
      simp only [List.map_cons, List.nodup_cons]
      exact ⟨hak ▸ hn.1, hn.2⟩
    · rw [if_neg hak]
      simp only [List.map_cons, List.nodup_cons]
      refine ⟨fun c => ?_, ih hn.2⟩
      rcases List.mem_map.1 c with ⟨q, hq, hq1⟩
      rcases mem_jsSet hq with h' | h'
      · exact hak (by rw [← hq1, h'])
      · exact hn.1 (hq1 ▸ List.mem_map_of_mem Prod.fst h')

theorem nodupKeys_jsDel {α : Type} {l : List (String × α)} (k : String)
    (hn : (l.map Prod.fst).Nodup) : ((jsDel l k).map Prod.fst).Nodup := by
  induction l with
  | nil => simp [jsDel]
  | cons q rest ih =>
    obtain ⟨a, b⟩ := q
    simp only [List.map_cons, List.nodup_cons] at hn
    simp only [jsDel]
    by_cases hak : a = k
    · rw [if_pos hak]
      exact hn.2
    · rw [if_neg hak]
      simp only [List.map_cons, List.nodup_cons]
      refine ⟨fun c => ?_, ih hn.2⟩
      rcases List.mem_map.1 c with ⟨q, hq, hq1⟩
      exact hn.1 (hq1 ▸ List.mem_map_of_mem Prod.fst (mem_jsDel hq))

theorem jsGet_jsSet (l : List (String × Int)) (k : String) (v : Int) (j : String) :
    jsGet (jsSet l k v) j = if j = k then v else jsGet l j := by
  unfold jsGet
  rw [jsLookup_jsSet]
  by_cases h : j = k <;> simp [h]

theorem jsGet_jsDel_ne (l : List (String × Int)) (k j : String) (h : j ≠ k) :
    jsGet (jsDel l k) j = jsGet l j := by
  unfold jsGet
  rw [jsLookup_jsDel_ne l k j h]

theorem jsGet_jsDel_self (l : List (String × Int)) (k : String)
    (hn : (l.map Prod.fst).Nodup) : jsGet (jsDel l k) k = 0 := by
  unfold jsGet
  rw [jsLookup_jsDel_self l k hn]
  rfl

/-! ### Error results leave the state untouched (per handler) -/

theorem addMachine_err (s : GameState) (r : Rules) (x y : Option Int) (fid : String) :
    (addMachine s r x y fid).error ≠ none → (addMachine s r x y fid).state = s := by
  simp only [addMachine]
  repeat' split
  all_goals intro h
  all_goals first | rfl | (exfalso; exact h rfl)

theorem removeMachine_err (s : GameState) (r : Rules) (mid : String) :
    (removeMachine s r mid).error ≠ none → (removeMachine s r mid).state = s := by
  simp only [removeMachine]
  repeat' split
  all_goals intro h
  all_goals first | rfl | (exfalso; exact h rfl)

theorem assignRecipe_err (s : GameState) (r : Rules) (mid : String) (rid : Option String) :
    (assignRecipe s r mid rid).error ≠ none → (assignRecipe s r mid rid).state = s := by
  simp only [assignRecipe]
  repeat' split
  all_goals intro h
  all_goals first | rfl | (exfalso; exact h rfl)

theorem addGenerator_err (s : GameState) (r : Rules) (g : String) (x y : Option Int)
    (fid : String) :
    (addGenerator s r g x y fid).error ≠ none → (addGenerator s r g x y fid).state = s := by
  simp only [addGenerator]
  repeat' split
  all_goals intro h
  all_goals first | rfl | (exfalso; exact h rfl)

theorem removeGenerator_err (s : GameState) (r : Rules) (gid : String) :
    (removeGenerator s r gid).error ≠ none → (removeGenerator s r gid).state = s := by
  simp only [removeGenerator]
  repeat' split
  all_goals intro h
  all_goals first | rfl | (exfalso; exact h rfl)

theorem buyFloorSpace_err (s : GameState) (r : Rules) :
    (buyFloorSpace s r).error ≠ none → (buyFloorSpace s r).state = s := by
  simp only [buyFloorSpace]
  repeat' split
  all_goals intro h
  all_goals first | rfl | (exfalso; exact h rfl)

theorem sellGoods_err (s : GameState) (r : Rules) (itemId : String) (q : Int) :
    (sellGoods s r itemId q).error ≠ none → (sellGoods s r itemId q).state = s := by
  simp only [sellGoods]
  repeat' split
  all_goals intro h
  all_goals first | rfl | (exfalso; exact h rfl)

theorem toggleResearch_err (s : GameState) (r : Rules) (a : Bool) :
    (toggleResearch s r a).error ≠ none → (toggleResearch s r a).state = s := by
  intro h
  exact absurd rfl h

theorem unlockRecipe_err (s : GameState) (r : Rules) (rid : String) :
    (unlockRecipe s r rid).error ≠ none → (unlockRecipe s r rid).state = s := by
  simp only [unlockRecipe]
  repeat' split
  all_goals intro h
  all_goals first | rfl | (exfalso; exact h rfl)

theorem unblockMachine_err (s : GameState) (r : Rules) (mid : String) :
    (unblockMachine s r mid).error ≠ none → (unblockMachine s r mid).state = s := by
  simp only [unblockMachine]
  repeat' split
  all_goals intro h
  all_goals first | rfl | (exfalso; exact h rfl)

theorem toggleMachine_err (s : GameState) (r : Rules) (mid : String) :
    (toggleMachine s r mid).error ≠ none → (toggleMachine s r mid).state = s := by
  simp only [toggleMachine]
  repeat' split
  all_goals intro h
  all_goals first | rfl | (exfalso; exact h rfl)

theorem buyInventorySpace_err (s : GameState) (r : Rules) :
    (buyInventorySpace s r).error ≠ none → (buyInventorySpace s r).state = s := by
  simp only [buyInventorySpace]
  repeat' split
  all_goals intro h
  all_goals first | rfl | (exfalso; exact h rfl)

/-- C2: for every state, rules and command (unknown tags included), a result
that carries an error message returns the input state unchanged in every
field; no handler applies a partial effect before rejecting. -/
theorem claim_C2_error_means_state_unchanged (s : GameState) (r : Rules) (a : Command)
    (ids : Nat → String) (cursor : Nat)
    (h : (engine s r a ids cursor).1.error ≠ none) :
    (engine s r a ids cursor).1.state = s := by
  cases a with
  | SIMULATE => exact absurd rfl h
  | ADD_MACHINE x y => exact addMachine_err s r x y _ h
  | REMOVE_MACHINE mid => exact removeMachine_err s r mid h
  | ASSIGN_RECIPE mid rid => exact assignRecipe_err s r mid rid h
  | ADD_GENERATOR g x y => exact addGenerator_err s r g x y _ h
  | REMOVE_GENERATOR gid => exact removeGenerator_err s r gid h
  | BUY_FLOOR_SPACE => exact buyFloorSpace_err s r h
  | SELL_GOODS itemId q => exact sellGoods_err s r itemId q h
  | TOGGLE_RESEARCH b => exact toggleResearch_err s r b h
  | UNLOCK_RECIPE rid => exact unlockRecipe_err s r rid h
  | UNBLOCK_MACHINE mid => exact unblockMachine_err s r mid h
  | TOGGLE_MACHINE mid => exact toggleMachine_err s r mid h
  | BUY_INVENTORY_SPACE => exact buyInventorySpace_err s r h
  | UNKNOWN tag => rfl

theorem claim_C2_witness :
    (engine baseState testRules (Command.UNKNOWN "FROBNICATE") idsA 0).1.error ≠ none ∧
    (engine baseState testRules (Command.UNKNOWN "FROBNICATE") idsA 0).1.state = baseState :=
  ⟨by decide,
   claim_C2_error_means_state_unchanged baseState testRules (Command.UNKNOWN "FROBNICATE")
     idsA 0 (by decide)⟩

/-! ### Sell command -/

/-- C10: a SELL command for an item absent from the inventory, with quantity 0,
is accepted (the `available < quantity` guard compares 0 with 0), leaves the
credits unchanged, and initializes the item's market popularity to the
configured maximum when it was untracked, instead of rejecting the sale. -/
theorem claim_C10_sell_zero_of_absent_item (s : GameState) (r : Rules) (itemId : String)
    (material : Material)
    (hmat : r.materials.find? (fun m => m.id == itemId) = some material)
    (habs : jsLookup s.inventory itemId = none)
    (hpop : jsLookup s.marketPopularity itemId = none)
    (hmm : r.market.minPopularity ≤ r.market.maxPopularity) :
    (sellGoods s r itemId 0).error = none ∧
    (sellGoods s r itemId 0).state.credits = s.credits ∧
    jsLookup (sellGoods s r itemId 0).state.marketPopularity itemId =
      some r.market.maxPopularity := by
  have havail : jsGet s.inventory itemId = 0 := by
    unfold jsGet; rw [habs]; rfl
  simp only [sellGoods, havail, hmat, habs, hpop]
  norm_num
  constructor
  · rfl
  · rw [jsLookup_jsSet]
    simp only [if_pos rfl]
    rw [jsLookup_jsSet]
    simp only [if_pos rfl, Option.getD_some]
    norm_num [hmm]

theorem claim_C10_witness :
    (sellGoods baseState testRules "wood" 0).error = none ∧
    (sellGoods baseState testRules "wood" 0).state.credits = baseState.credits ∧
    jsLookup (sellGoods baseState testRules "wood" 0).state.marketPopularity "wood" =
      some testRules.market.maxPopularity :=
  claim_C10_sell_zero_of_absent_item baseState testRules "wood"
    { id := "wood", name := "Wood", basePrice := 2, category := "raw", weight := 1 }
    (by decide) (by decide) (by decide) (by decide)

/-- A state whose popularity map tracks wood with multiplier 0: the `|| 1.0`
and `!popularity` checks in `sellGoods` treat it as untracked. -/
def zeroPopState : GameState :=
  { baseState with inventory := [("wood", 5)], marketPopularity := [("wood", 0)] }

/-- C9 counterexample: selling 5 wood (basePrice 2) from a state whose tracked
multiplier is 0 credits `floor(2 * 1.0 * 5) = 10`, not
`floor(basePrice * currentMultiplier * quantity) = floor(2 * 0 * 5) = 0` as the
claim requires, because a stored multiplier of 0 is falsy in JS. -/
theorem ratFloor_eq_intFloor (q : Rat) : Rat.floor q = Int.floor q := rfl

theorem ratFloorCast (n : Int) : Rat.floor ((n : Rat)) = n := by
  rw [ratFloor_eq_intFloor]
  exact Int.floor_intCast n

theorem claim_C9_counterexample :
    jsLookup zeroPopState.marketPopularity "wood" = some 0 ∧
    (sellGoods zeroPopState testRules "wood" 5).error = none ∧
    (sellGoods zeroPopState testRules "wood" 5).state.credits = zeroPopState.credits + 10 ∧
    ¬ ((sellGoods zeroPopState testRules "wood" 5).state.credits =
        zeroPopState.credits + Rat.floor ((2 : Rat) * 0 * 5)) := by
  have h1 : jsGet zeroPopState.inventory "wood" = 5 := by decide
  have h2 : testRules.materials.find? (fun m => m.id == "wood") =
      some { id := "wood", name := "Wood", basePrice := 2, category := "raw", weight := 1 } := by
    decide
  have h3 : jsLookup zeroPopState.marketPopularity "wood" = some 0 := by decide
  have hd : popOrDefault (some 0) = 1 := by decide
  have h10 : (((2 : Int) : Rat) * 1 * ((5 : Int) : Rat)) = ((10 : Int) : Rat) := by
    push_cast; ring
  have h0 : ((2 : Rat) * 0 * 5) = ((0 : Int) : Rat) := by push_cast; ring
  refine ⟨h3, ?_, ?_, ?_⟩
  · simp only [sellGoods, h1, h2]
    norm_num
  · simp only [sellGoods, h1, h2, h3]
    rw [hd, h10, ratFloorCast]
    norm_num
  · simp only [sellGoods, h1, h2, h3]
    rw [hd, h10, ratFloorCast, h0, ratFloorCast]
    decide

/-- C9 (amended): for a state holding enough of a material-listed item, SELL
credits `floor(basePrice * multiplier * quantity)` (multiplier read as 1.0
when untracked), debits the quantity, and decays the multiplier — initialized
to the configured maximum on first sale — by `decayRate * quantity`, clamped
at the configured minimum; the amendment excludes a stored multiplier of
exactly 0, which JS falsiness treats as untracked. -/
theorem claim_C9_sell_formula (s : GameState) (r : Rules) (itemId : String) (q : Int)
    (material : Material)
    (hq : 0 ≤ q)
    (hmat : r.materials.find? (fun m => m.id == itemId) = some material)
    (havail : q ≤ jsGet s.inventory itemId)
    (hinv : (s.inventory.map Prod.fst).Nodup)
    (hpop : jsLookup s.marketPopularity itemId ≠ some 0) :
    (sellGoods s r itemId q).error = none ∧
    (sellGoods s r itemId q).state.credits = s.credits +
      Rat.floor ((material.basePrice : Rat) *
        (match jsLookup s.marketPopularity itemId with
         | some v => v
         | none => 1) * (q : Rat)) ∧
    jsGet (sellGoods s r itemId q).state.inventory itemId = jsGet s.inventory itemId - q ∧
    jsLookup (sellGoods s r itemId q).state.marketPopularity itemId =
      some (max r.market.minPopularity
        ((match jsLookup s.marketPopularity itemId with
          | some v => v
          | none => r.market.maxPopularity) - r.market.decayRate * (q : Rat))) := by
  have hlt : ¬ (jsGet s.inventory itemId < q) := not_lt.2 havail
  simp only [sellGoods, hmat, if_neg hlt]
  refine ⟨trivial, ?_, ?_, ?_⟩
  · cases hp : jsLookup s.marketPopularity itemId with
    | none => simp [hp, popOrDefault]
    | some v =>
      have hv : v ≠ 0 := fun c => hpop (by rw [hp, c])
      simp [hp, popOrDefault, hv]
  · cases hi : jsLookup s.inventory itemId with
    | none =>
      have h0 : jsGet s.inventory itemId = 0 := by unfold jsGet; rw [hi]; rfl
      have hq0 : q = 0 := le_antisymm (h0 ▸ havail) hq
      simp only [hi, hq0]
      rw [jsGet_jsSet]
      simp [h0]
    | some v =>
      have hv : jsGet s.inventory itemId = v := by unfold jsGet; rw [hi]; rfl
      simp only [hi]
      by_cases hz : v - q = 0
      · rw [if_pos hz, jsGet_jsDel_self _ _ hinv, hv]
        omega
      · rw [if_neg hz, jsGet_jsSet]
        simp [hv]
  · cases hp : jsLookup s.marketPopularity itemId with
    | none =>
      simp only [hp]
      rw [jsLookup_jsSet]
      simp only [if_pos rfl, Option.getD_some]
      rw [jsLookup_jsSet]
      simp
    | some v =>
      have hv : v ≠ 0 := fun c => hpop (by rw [hp, c])
      simp only [hp, if_neg hv]
      rw [jsLookup_jsSet]
      simp [hp]

def woodMat : Material :=
  { id := "wood", name := "Wood", basePrice := 2, category := "raw", weight := 1 }

def sellScenState : GameState :=
  { baseState with inventory := [("wood", 5)], marketPopularity := [("wood", mkRat 1 1)] }

theorem claim_C9_witness :
    (sellGoods sellScenState testRules "wood" 5).error = none ∧
    (sellGoods sellScenState testRules "wood" 5).state.credits = sellScenState.credits +
      Rat.floor ((woodMat.basePrice : Rat) *
        (match jsLookup sellScenState.marketPopularity "wood" with
         | some v => v
         | none => 1) * (((5 : Int)) : Rat)) ∧
    jsGet (sellGoods sellScenState testRules "wood" 5).state.inventory "wood" =
      jsGet sellScenState.inventory "wood" - 5 ∧
    jsLookup (sellGoods sellScenState testRules "wood" 5).state.marketPopularity "wood" =
      some (max testRules.market.minPopularity
        ((match jsLookup sellScenState.marketPopularity "wood" with
          | some v => v
          | none => testRules.market.maxPopularity) -
          testRules.market.decayRate * (((5 : Int)) : Rat))) :=
  claim_C9_sell_formula sellScenState testRules "wood" 5 woodMat (by decide) (by decide)
    (by decide) (by decide) (by decide)

/-! ### Floor expansion (EXPAND_FLOOR) -/

def c7State : GameState :=
  { baseState with floorSpace := { width := 16, height := 8, placements := [] } }

/-- C7 counterexample: from a 16x8 floor (rules: initialWidth 8, chunk 8,
costPerCell 1) the accepted expansion grows the height to 16, adding
16*16 - 16*8 = 128 cells, but debits only chunkSize^2 = 64 credits — not
`cells actually added x per-cell cost` as the claim states. -/
theorem claim_C7_counterexample :
    (buyFloorSpace c7State testRules).error = none ∧
    (buyFloorSpace c7State testRules).state.floorSpace.width = 16 ∧
    (buyFloorSpace c7State testRules).state.floorSpace.height = 16 ∧
    c7State.credits - (buyFloorSpace c7State testRules).state.credits = 64 ∧
    (16 * 16 - 16 * 8 : Int) * testRules.floorSpace.costPerCell = 128 ∧
    ¬ (c7State.credits - (buyFloorSpace c7State testRules).state.credits =
        (16 * 16 - 16 * 8 : Int) * testRules.floorSpace.costPerCell) := by
  decide

/-- C7 (amended): an accepted EXPAND_FLOOR grows exactly one dimension —
width first until it reaches the doubling target, then height — by the
computed chunk size, and debits `chunkSize^2 x costPerCell` (which equals the
number of cells actually added only for width expansions of the doubling
sequence; height expansions add `width x chunkSize` cells but are charged
`chunkSize^2`).  The dimension sequence from the initial 8x8 square is
8x8 -> 16x8 -> 16x16 -> 32x16 -> 32x32 with the chunk doubling after each
completed square. -/
theorem claim_C7_expand_floor (s : GameState) (r : Rules)
    (h : ¬ s.credits < (getNextExpansionChunk s r).cost) :
    (buyFloorSpace s r).error = none ∧
    (buyFloorSpace s r).state.credits =
      s.credits - (getNextExpansionChunk s r).chunkSize *
        (getNextExpansionChunk s r).chunkSize * r.floorSpace.costPerCell ∧
    ((getNextExpansionChunk s r).expandWidth = true ∧
      (buyFloorSpace s r).state.floorSpace.width =
        s.floorSpace.width + (getNextExpansionChunk s r).chunkSize ∧
      (buyFloorSpace s r).state.floorSpace.height = s.floorSpace.height ∨
     (getNextExpansionChunk s r).expandWidth = false ∧
      (buyFloorSpace s r).state.floorSpace.width = s.floorSpace.width ∧
      (buyFloorSpace s r).state.floorSpace.height =
        s.floorSpace.height + (getNextExpansionChunk s r).chunkSize) ∧
    (engineRun testRules idsA { baseState with credits := 1000 } 0
        [Command.BUY_FLOOR_SPACE]).floorSpace.width = 16 ∧
    (engineRun testRules idsA { baseState with credits := 1000 } 0
        [Command.BUY_FLOOR_SPACE]).floorSpace.height = 8 ∧
    (engineRun testRules idsA { baseState with credits := 1000 } 0
        (List.replicate 2 Command.BUY_FLOOR_SPACE)).floorSpace.width = 16 ∧
    (engineRun testRules idsA { baseState with credits := 1000 } 0
        (List.replicate 2 Command.BUY_FLOOR_SPACE)).floorSpace.height = 16 ∧
    (engineRun testRules idsA { baseState with credits := 1000 } 0
        (List.replicate 3 Command.BUY_FLOOR_SPACE)).floorSpace.width = 32 ∧
    (engineRun testRules idsA { baseState with credits := 1000 } 0
        (List.replicate 3 Command.BUY_FLOOR_SPACE)).floorSpace.height = 16 ∧
    (engineRun testRules idsA { baseState with credits := 1000 } 0
        (List.replicate 4 Command.BUY_FLOOR_SPACE)).floorSpace.width = 32 ∧
    (engineRun testRules idsA { baseState with credits := 1000 } 0
        (List.replicate 4 Command.BUY_FLOOR_SPACE)).floorSpace.height = 32 := by
  refine ⟨?_, ?_, ?_, by decide, by decide, by decide, by decide, by decide, by decide,
    by decide, by decide⟩
  · simp only [buyFloorSpace, if_neg h]
  · simp only [buyFloorSpace, if_neg h]
    rfl
  · have hnw : (buyFloorSpace s r).state.floorSpace.width =
        (getNextExpansionChunk s r).newWidth := by
      simp only [buyFloorSpace, if_neg h]
    have hnh : (buyFloorSpace s r).state.floorSpace.height =
        (getNextExpansionChunk s r).newHeight := by
      simp only [buyFloorSpace, if_neg h]
    have hifw : (getNextExpansionChunk s r).newWidth =
        if (getNextExpansionChunk s r).expandWidth = true then
          s.floorSpace.width + (getNextExpansionChunk s r).chunkSize
        else s.floorSpace.width := rfl
    have hifh : (getNextExpansionChunk s r).newHeight =
        if (getNextExpansionChunk s r).expandWidth = true then s.floorSpace.height
        else s.floorSpace.height + (getNextExpansionChunk s r).chunkSize := rfl
    by_cases hw : (getNextExpansionChunk s r).expandWidth = true
    · refine Or.inl ⟨hw, ?_, ?_⟩
      · rw [hnw, hifw, if_pos hw]
      · rw [hnh, hifh, if_pos hw]
    · have hw' : (getNextExpansionChunk s r).expandWidth = false := by
        revert hw
        cases (getNextExpansionChunk s r).expandWidth <;> simp
      refine Or.inr ⟨hw', ?_, ?_⟩
      · rw [hnw, hifw, if_neg hw]
      · rw [hnh, hifh, if_neg hw]

theorem claim_C7_witness :
    (buyFloorSpace { baseState with credits := 1000 } testRules).error = none :=
  (claim_C7_expand_floor { baseState with credits := 1000 } testRules (by decide)).1

/-! ### Determinism and generateId -/

def c1State : GameState :=
  { baseState with inventory := [("production_machine", 1)] }

/-- C1 (code bug evidence): `generateId` draws from `Math.random()`, which is
not part of the seeded generator state.  Replaying the same command sequence
from the same seeded state under two different ambient id streams produces
different final states: the id of the newly built machine differs, so the
spec's determinism guarantee fails for any run that builds a machine or a
generator. -/
theorem claim_C1_random_ids_break_replay :
    (engineRun testRules idsA c1State 0 [Command.ADD_MACHINE (some 0) (some 0)]).machines.map
        Machine.id = ["a"] ∧
    (engineRun testRules idsB c1State 0 [Command.ADD_MACHINE (some 0) (some 0)]).machines.map
        Machine.id = ["b"] ∧
    engineRun testRules idsA c1State 0 [Command.ADD_MACHINE (some 0) (some 0)] ≠
      engineRun testRules idsB c1State 0 [Command.ADD_MACHINE (some 0) (some 0)] := by
  refine ⟨by decide, by decide, ?_⟩
  intro h
  have := congrArg (fun st => st.machines.map Machine.id) h
  simp only at this
  rw [show (engineRun testRules idsA c1State 0
      [Command.ADD_MACHINE (some 0) (some 0)]).machines.map Machine.id = ["a"] from by decide,
    show (engineRun testRules idsB c1State 0
      [Command.ADD_MACHINE (some 0) (some 0)]).machines.map Machine.id = ["b"] from by decide]
      at this
  exact absurd this (by decide)

/-! ### Recipe completion: exact conservation (C4) -/

theorem jsGet_cons (p : String × Int) (l : List (String × Int)) (j : String) :
    jsGet (p :: l) j = if p.1 = j then p.2 else jsGet l j := by
  unfold jsGet
  rw [jsLookup_cons]
  by_cases h : p.1 = j <;> simp [h]

theorem jsGet_eq_zero {l : List (String × Int)} {k : String}
    (h : k ∉ l.map Prod.fst) : jsGet l k = 0 := by
  unfold jsGet
  rw [jsLookup_eq_none h]
  rfl

theorem addOutputs_jsGet (inv : List (String × Int)) (outs : List (String × Int))
    (hn : (outs.map Prod.fst).Nodup) (i : String) :
    jsGet (addOutputs inv outs) i = jsGet inv i + jsGet outs i := by
  induction outs generalizing inv with
  | nil => simp [addOutputs, jsGet, jsLookup]
  | cons p rest ih =>
    obtain ⟨k, q⟩ := p
    simp only [List.map_cons, List.nodup_cons] at hn
    have hstep : addOutputs inv ((k, q) :: rest) =
        addOutputs (jsSet inv k (jsGet inv k + q)) rest := rfl
    rw [hstep, ih _ hn.2, jsGet_jsSet, jsGet_cons]
    by_cases hik : i = k
    · subst hik
      rw [if_pos rfl, if_pos rfl, jsGet_eq_zero hn.1]
      ring
    · rw [if_neg hik, if_neg (fun c => hik c.symm)]

theorem consumeBuffer_jsGet (buffer : List (String × Int)) (ins : List (String × Int))
    (hb : (buffer.map Prod.fst).Nodup) (hn : (ins.map Prod.fst).Nodup) (i : String) :
    jsGet (consumeBuffer buffer ins) i = jsGet buffer i - jsGet ins i := by
  induction ins generalizing buffer with
  | nil => simp [consumeBuffer, jsGet, jsLookup]
  | cons p rest ih =>
    obtain ⟨k, q⟩ := p
    simp only [List.map_cons, List.nodup_cons] at hn
    have hstep : consumeBuffer buffer ((k, q) :: rest) =
        consumeBuffer (if jsGet buffer k - q = 0 then jsDel buffer k
          else jsSet buffer k (jsGet buffer k - q)) rest := rfl
    have hbstep : (((if jsGet buffer k - q = 0 then jsDel buffer k
        else jsSet buffer k (jsGet buffer k - q)) : List (String × Int)).map Prod.fst).Nodup := by
      by_cases hz : jsGet buffer k - q = 0
      · rw [if_pos hz]; exact nodupKeys_jsDel k hb
      · rw [if_neg hz]; exact nodupKeys_jsSet k _ hb
    have hgetstep : ∀ j, jsGet (if jsGet buffer k - q = 0 then jsDel buffer k
        else jsSet buffer k (jsGet buffer k - q)) j =
        if j = k then jsGet buffer k - q else jsGet buffer j := by
      intro j
      by_cases hz : jsGet buffer k - q = 0
      · rw [if_pos hz]
        by_cases hjk : j = k
        · subst hjk
          rw [if_pos rfl, jsGet_jsDel_self _ _ hb, hz]
        · rw [if_neg hjk, jsGet_jsDel_ne _ _ _ hjk]
      · rw [if_neg hz, jsGet_jsSet]
    rw [hstep, ih _ hbstep hn.2, hgetstep, jsGet_cons]
    by_cases hik : i = k
    · subst hik
      rw [if_pos rfl, if_pos rfl, jsGet_eq_zero hn.1]
      ring
    · rw [if_neg hik, if_neg (fun c => hik c.symm)]

/-- C4: once a machine's buffer meets every input requirement of its recipe,
the completion step is all-or-nothing: if every output item has remaining
per-item capacity for its full quantity, exactly the recipe's input multiset
is debited from the buffer and exactly its output multiset is credited to the
inventory; otherwise both the buffer and the inventory are left untouched for
that machine this tick. -/
theorem claim_C4_completion_all_or_nothing (capacity : Int) (rules : Rules)
    (inv buffer : List (String × Int)) (recipe : Recipe)
    (hbn : (buffer.map Prod.fst).Nodup)
    (hinn : (recipe.inputs.map Prod.fst).Nodup)
    (houtn : (recipe.outputs.map Prod.fst).Nodup)
    (hc : bufferComplete buffer recipe.inputs = true) :
    (canProduce inv capacity rules recipe.outputs = true →
      (∀ itemId, jsGet (completeStage capacity rules inv buffer recipe).2 itemId =
        jsGet buffer itemId - jsGet recipe.inputs itemId) ∧
      (∀ itemId, jsGet (completeStage capacity rules inv buffer recipe).1 itemId =
        jsGet inv itemId + jsGet recipe.outputs itemId)) ∧
    (canProduce inv capacity rules recipe.outputs = false →
      completeStage capacity rules inv buffer recipe = (inv, buffer)) := by
  constructor
  · intro hp
    have h1 : completeStage capacity rules inv buffer recipe =
        (addOutputs inv recipe.outputs, consumeBuffer buffer recipe.inputs) := by
      unfold completeStage
      rw [hc, hp]
      simp
    rw [h1]
    constructor
    · intro itemId
      exact consumeBuffer_jsGet buffer recipe.inputs hbn hinn itemId
    · intro itemId
      exact addOutputs_jsGet inv recipe.outputs houtn itemId
  · intro hp
    unfold completeStage
    rw [hc, hp]
    simp

def recipePlanks : Recipe :=
  { id := "planks", inputs := [("wood", 2)], outputs := [("planks", 1)]
    energyRequired := 1, ticksToComplete := 1, tier := 1 }

theorem claim_C4_witness :
    jsGet (completeStage 100 testRules [] [("wood", 2)] recipePlanks).2 "wood" =
      jsGet [("wood", 2)] "wood" - jsGet recipePlanks.inputs "wood" ∧
    jsGet (completeStage 100 testRules [] [("wood", 2)] recipePlanks).1 "planks" =
      jsGet [] "planks" + jsGet recipePlanks.outputs "planks" :=
  ⟨((claim_C4_completion_all_or_nothing 100 testRules [] [("wood", 2)] recipePlanks
      (by decide) (by decide) (by decide) (by decide)).1 (by decide)).1 "wood",
   ((claim_C4_completion_all_or_nothing 100 testRules [] [("wood", 2)] recipePlanks
      (by decide) (by decide) (by decide) (by decide)).1 (by decide)).2 "planks"⟩

/-! ### Power allocation (C5) -/

def machineDraw (m : Machine) : Int :=
  if eligibleMachine m then m.energyConsumption else 0

theorem foldl_consumed (ms : List Machine) (a : Int) :
    ms.foldl (fun sum m => if eligibleMachine m then sum + m.energyConsumption else sum) a =
    a + (ms.map machineDraw).sum := by
  induction ms generalizing a with
  | nil => simp
  | cons m rest ih =>
    simp only [List.foldl_cons, List.map_cons, List.sum_cons, machineDraw]
    by_cases h : eligibleMachine m = true
    · rw [if_pos h, if_pos h, ih]; ring
    · rw [if_neg h, if_neg h, ih]; ring

theorem blockFromEnd_len (d : Int) (ms : List Machine) :
    (blockFromEnd d ms).2.length = ms.length := by
  induction ms with
  | nil => rfl
  | cons m rest ih =>
    simp only [blockFromEnd]
    by_cases h : 0 < (blockFromEnd d rest).1 ∧ eligibleMachine m = true
    · rw [if_pos h]; simp [ih]
    · rw [if_neg h]; simp [ih]

theorem blockFromEnd_sum (d : Int) (ms : List Machine) :
    ((blockFromEnd d ms).2.map machineDraw).sum =
      (ms.map machineDraw).sum - (d - (blockFromEnd d ms).1) := by
  induction ms with
  | nil => simp [blockFromEnd]
  | cons m rest ih =>
    simp only [blockFromEnd]
    by_cases h : 0 < (blockFromEnd d rest).1 ∧ eligibleMachine m = true
    · rw [if_pos h]
      simp only [List.map_cons, List.sum_cons]
      have hblocked : machineDraw { m with status := "blocked" } = 0 := by
        simp [machineDraw, eligibleMachine]
      have hdraw : machineDraw m = m.energyConsumption := by
        simp [machineDraw, h.2]
      rw [hblocked, ih, hdraw]
      ring
    · rw [if_neg h]
      simp only [List.map_cons, List.sum_cons]
      rw [ih]
      ring

theorem blockFromEnd_block (d : Int) (ms : List Machine) :
    (blockFromEnd d ms).1 ≤ 0 ∨
    ∀ (i : Nat) (m m' : Machine), ms[i]? = some m → (blockFromEnd d ms).2[i]? = some m' →
      eligibleMachine m = true → m'.status = "blocked" := by
  induction ms with
  | nil =>
    right
    intro i m m' hm
    simp at hm
  | cons mh rest ih =>
    simp only [blockFromEnd]
    by_cases h : 0 < (blockFromEnd d rest).1 ∧ eligibleMachine mh = true
    · rw [if_pos h]
      rcases ih with hle | hall
      · exact absurd h.1 (not_lt.2 hle)
      · right
        intro i m m' hm hm' he
        cases i with
        | zero =>
          simp only [List.getElem?_cons_zero, Option.some.injEq] at hm hm'
          rw [← hm']
        | succ n =>
          simp only [List.getElem?_cons_succ] at hm hm'
          exact hall n m m' hm hm' he
    · rw [if_neg h]
      by_cases hd : 0 < (blockFromEnd d rest).1
      · have hne : ¬ eligibleMachine mh = true := fun c => h ⟨hd, c⟩
        rcases ih with hle | hall
        · exact absurd hd (not_lt.2 hle)
        · right
          intro i m m' hm hm' he
          cases i with
          | zero =>
            simp only [List.getElem?_cons_zero, Option.some.injEq] at hm hm'
            rw [← hm] at he
            exact absurd he hne
          | succ n =>
            simp only [List.getElem?_cons_succ] at hm hm'
            exact hall n m m' hm hm' he
      · left
        exact not_lt.1 hd

/-- C5: after the power-allocation phase, either consumption does not exceed
production in the recomputed snapshot, or every machine that was enabled,
assigned a recipe and not already blocked has been marked blocked; the
deficit walk visits machines in reverse creation order subtracting each
blocked machine's draw until the deficit is no longer positive. -/
theorem claim_C5_power_allocation (s : GameState) (r : Rules) :
    (allocatePower s r).energy.consumed ≤ (allocatePower s r).energy.produced ∨
    ∀ (i : Nat) (m m' : Machine), s.machines[i]? = some m →
      (allocatePower s r).machines[i]? = some m' →
      eligibleMachine m = true → m'.status = "blocked" := by
  have hcons : ∀ (st : GameState),
      (calculateEnergy st r).consumed = (st.machines.map machineDraw).sum := by
    intro st
    unfold calculateEnergy
    rw [foldl_consumed]
    ring
  by_cases hd : (calculateEnergy s r).produced < (calculateEnergy s r).consumed
  · have hres : allocatePower s r =
        (let st' := { s with
            energy := calculateEnergy s r
            machines := (blockFromEnd ((calculateEnergy s r).consumed -
              (calculateEnergy s r).produced) s.machines).2 }
         { st' with energy := calculateEnergy st' r }) := by
      unfold allocatePower
      rw [if_pos hd]
    rcases blockFromEnd_block ((calculateEnergy s r).consumed -
        (calculateEnergy s r).produced) s.machines with hle | hall
    · left
      rw [hres]
      show (calculateEnergy { s with
          energy := calculateEnergy s r
          machines := (blockFromEnd ((calculateEnergy s r).consumed -
            (calculateEnergy s r).produced) s.machines).2 } r).consumed ≤
        (calculateEnergy { s with
          energy := calculateEnergy s r
          machines := (blockFromEnd ((calculateEnergy s r).consumed -
            (calculateEnergy s r).produced) s.machines).2 } r).produced
      have hprodeq :
          (calculateEnergy { s with
            energy := calculateEnergy s r
            machines := (blockFromEnd ((calculateEnergy s r).consumed -
              (calculateEnergy s r).produced) s.machines).2 } r).produced =
          (calculateEnergy s r).produced := rfl
      rw [hcons, hprodeq, blockFromEnd_sum]
      have h1 : (s.machines.map machineDraw).sum = (calculateEnergy s r).consumed :=
        (hcons s).symm
      rw [h1]
      linarith [hle]
    · right
      intro i m m' hm hm' he
      have hms : (allocatePower s r).machines =
          (blockFromEnd ((calculateEnergy s r).consumed -
            (calculateEnergy s r).produced) s.machines).2 := by
        rw [hres]
      rw [hms] at hm'
      exact hall i m m' hm hm' he
  · left
    have hres : allocatePower s r = { s with energy := calculateEnergy s r } := by
      unfold allocatePower
      rw [if_neg hd]
    rw [hres]
    exact not_lt.1 hd

def powerShortState : GameState :=
  { baseState with
    generators := []
    machines :=
      [ { id := "m1", recipeId := some "planks", internalBuffer := [], status := "working"
        , enabled := true, spaceUsed := 4, energyConsumption := 2, x := 0, y := 0 } ] }

theorem claim_C5_witness :
    (allocatePower powerShortState testRules).energy.consumed ≤
      (allocatePower powerShortState testRules).energy.produced := by
  rcases claim_C5_power_allocation powerShortState testRules with h | h
  · exact h
  · decide

/-! ### Research phase (C8) -/

theorem mulberryStep_lt (seed : Nat) : mulberryStep seed < U32 := by
  unfold mulberryStep
  exact Nat.mod_lt _ (by decide)

theorem u32_eq_pow : U32 = 2 ^ 32 := by decide

theorem mulberryMix_lt (s : Nat) : mulberryMix s < U32 := by
  unfold mulberryMix
  have h1 : imul32 (Nat.xor s (s >>> 15)) (s ||| 1) < U32 := Nat.mod_lt _ (by decide)
  have h2 : (imul32 (Nat.xor s (s >>> 15)) (s ||| 1) +
      imul32 (Nat.xor (imul32 (Nat.xor s (s >>> 15)) (s ||| 1))
        ((imul32 (Nat.xor s (s >>> 15)) (s ||| 1)) >>> 7))
        ((imul32 (Nat.xor s (s >>> 15)) (s ||| 1)) ||| 61)) % U32 < U32 :=
    Nat.mod_lt _ (by decide)
  rw [u32_eq_pow] at h1 h2 ⊢
  have h3 := Nat.xor_lt_two_pow h2 h1
  have h4 : (Nat.xor ((imul32 (Nat.xor s (s >>> 15)) (s ||| 1) +
      imul32 (Nat.xor (imul32 (Nat.xor s (s >>> 15)) (s ||| 1))
        ((imul32 (Nat.xor s (s >>> 15)) (s ||| 1)) >>> 7))
        ((imul32 (Nat.xor s (s >>> 15)) (s ||| 1)) ||| 61)) % U32)
      (imul32 (Nat.xor s (s >>> 15)) (s ||| 1))) >>> 14 < 2 ^ 32 := by
    calc (Nat.xor _ _) >>> 14 ≤ _ := by
          rw [Nat.shiftRight_eq_div_pow]
          exact Nat.div_le_self _ _
      _ < 2 ^ 32 := h3
  exact Nat.xor_lt_two_pow h3 h4

theorem rngNext_nonneg (seed : Nat) : 0 ≤ (rngNext seed).2 :=
  div_nonneg (Nat.cast_nonneg _) (Nat.cast_nonneg _)

theorem rngNext_lt_one (seed : Nat) : (rngNext seed).2 < 1 := by
  have hU : (0 : Rat) < (U32 : Nat) := by
    exact_mod_cast (by decide : 0 < U32)
  show (mulberryMix (mulberryStep seed) : Rat) / (U32 : Nat) < 1
  rw [div_lt_one hU]
  exact_mod_cast mulberryMix_lt (mulberryStep seed)

theorem recipeWeight_ge_one (rules : Rules) (inv : List (String × Int)) (rc : Recipe)
    (hpw : 0 ≤ rules.research.proximityWeight) : 1 ≤ recipeWeight rules inv rc := by
  unfold recipeWeight
  have : ∀ (l : List (String × Int)) (a : Rat), a ≤ l.foldl
      (fun w p => if 0 < jsGet inv p.1 then w + rules.research.proximityWeight else w) a := by
    intro l
    induction l with
    | nil => intro a; simp
    | cons p rest ih =>
      intro a
      simp only [List.foldl_cons]
      by_cases h : 0 < jsGet inv p.1
      · rw [if_pos h]
        calc a ≤ a + rules.research.proximityWeight := by linarith
          _ ≤ _ := ih _
      · rw [if_neg h]
        exact ih a
  exact this rc.inputs 1

theorem foldl_add_snd (l : List (Recipe × Rat)) (a : Rat) :
    l.foldl (fun sum p => sum + p.2) a = a + (l.map Prod.snd).sum := by
  induction l generalizing a with
  | nil => simp
  | cons p rest ih =>
    simp only [List.foldl_cons, List.map_cons, List.sum_cons]
    rw [ih]
    ring

theorem selectRecipe_total (ws : List (Recipe × Rat)) (sel : Rat) (hne : ws ≠ [])
    (hle : sel ≤ (ws.map Prod.snd).sum) : (selectRecipe sel ws).isSome = true := by
  induction ws generalizing sel with
  | nil => exact absurd rfl hne
  | cons p rest ih =>
    obtain ⟨rc, w⟩ := p
    simp only [selectRecipe]
    by_cases h : sel - w ≤ 0
    · rw [if_pos h]; rfl
    · rw [if_neg h]
      cases rest with
      | nil =>
        exfalso
        simp only [List.map_cons, List.sum_cons, List.map_nil, List.sum_nil] at hle
        push_neg at h
        linarith
      | cons q t =>
        refine ih (sel - w) (by simp) ?_
        simp only [List.map_cons, List.sum_cons] at hle ⊢
        linarith

theorem researchPhase_inventory (r : Rules) (st : GameState) (seed : Nat) :
    (researchPhase r st seed).1.inventory = st.inventory := by
  simp only [researchPhase]
  repeat' split
  all_goals rfl

theorem researchPhase_spec (r : Rules) (st : GameState) (seed : Nat)
    (hpw : 0 ≤ r.research.proximityWeight) :
    ((researchPhase r st seed).1.discoveredRecipes = st.discoveredRecipes ∨
      ∃ rid, (researchPhase r st seed).1.discoveredRecipes = st.discoveredRecipes ++ [rid]) ∧
    (¬ (st.research.active = true ∧
        r.research.energyCost ≤ st.energy.produced - st.energy.consumed) →
      (researchPhase r st seed).1 = st) ∧
    (st.research.active = true →
     r.research.energyCost ≤ st.energy.produced - st.energy.consumed →
     (rngNext seed).2 < r.research.discoveryChance →
     r.recipes.filter (fun rc => !(st.discoveredRecipes.contains rc.id)) ≠ [] →
     ∃ rc, selectRecipe ((rngNext (rngNext seed).1).2 *
         ((r.recipes.filter (fun rc => !(st.discoveredRecipes.contains rc.id))).map
           (fun rc => (rc, recipeWeight r st.inventory rc))).foldl (fun sum p => sum + p.2) 0)
         ((r.recipes.filter (fun rc => !(st.discoveredRecipes.contains rc.id))).map
           (fun rc => (rc, recipeWeight r st.inventory rc))) = some rc ∧
       (researchPhase r st seed).1.discoveredRecipes = st.discoveredRecipes ++ [rc.id]) := by
  by_cases hact : st.research.active = true ∧
      r.research.energyCost ≤ st.energy.produced - st.energy.consumed
  · by_cases hroll : 0 < (r.recipes.filter
        (fun rc => !(st.discoveredRecipes.contains rc.id))).length ∧
        (rngNext seed).2 < r.research.discoveryChance
    · cases hsel : selectRecipe ((rngNext (rngNext seed).1).2 *
          ((r.recipes.filter (fun rc => !(st.discoveredRecipes.contains rc.id))).map
            (fun rc => (rc, recipeWeight r st.inventory rc))).foldl (fun sum p => sum + p.2) 0)
          ((r.recipes.filter (fun rc => !(st.discoveredRecipes.contains rc.id))).map
            (fun rc => (rc, recipeWeight r st.inventory rc))) with
      | some rc =>
        have hres : researchPhase r st seed =
            ({ st with discoveredRecipes := st.discoveredRecipes ++ [rc.id] },
              (rngNext (rngNext seed).1).1) := by
          simp only [researchPhase]
          rw [if_pos hact, if_pos hroll, hsel]
        refine ⟨Or.inr ⟨rc.id, by rw [hres]⟩, fun hc => absurd hact hc, ?_⟩
        intro _ _ _ _
        exact ⟨rc, rfl, by rw [hres]⟩
      | none =>
        exfalso
        have hne : ((r.recipes.filter (fun rc => !(st.discoveredRecipes.contains rc.id))).map
            (fun rc => (rc, recipeWeight r st.inventory rc))) ≠ [] := by
          intro hc
          rw [List.map_eq_nil_iff] at hc
          rw [hc] at hroll
          simp at hroll
        have hnn : 0 ≤ (((r.recipes.filter
            (fun rc => !(st.discoveredRecipes.contains rc.id))).map
            (fun rc => (rc, recipeWeight r st.inventory rc))).map Prod.snd).sum := by
          apply List.sum_nonneg
          intro x hx
          rcases List.mem_map.1 hx with ⟨p, hp, hpx⟩
          rcases List.mem_map.1 hp with ⟨rc, hrc, hprc⟩
          rw [← hpx, ← hprc]
          exact le_trans zero_le_one (recipeWeight_ge_one r st.inventory rc hpw)
        have hle : (rngNext (rngNext seed).1).2 *
            ((r.recipes.filter (fun rc => !(st.discoveredRecipes.contains rc.id))).map
              (fun rc => (rc, recipeWeight r st.inventory rc))).foldl
              (fun sum p => sum + p.2) 0 ≤
            (((r.recipes.filter (fun rc => !(st.discoveredRecipes.contains rc.id))).map
              (fun rc => (rc, recipeWeight r st.inventory rc))).map Prod.snd).sum := by
          rw [foldl_add_snd, zero_add]
          exact mul_le_of_le_one_left hnn (le_of_lt (rngNext_lt_one _))
        have := selectRecipe_total _ _ hne hle
        rw [hsel] at this
        simp at this
    · have hres : researchPhase r st seed = (st, (rngNext seed).1) := by
        unfold researchPhase
        rw [if_pos hact, if_neg hroll]
      refine ⟨Or.inl (by rw [hres]), fun hc => absurd hact hc, ?_⟩
      intro _ _ h3 h4
      exact absurd ⟨List.length_pos.mpr h4, h3⟩ hroll
  · have hres : researchPhase r st seed = (st, seed) := by
      unfold researchPhase
      rw [if_neg hact]
    refine ⟨Or.inl (by rw [hres]), fun _ => by rw [hres], ?_⟩
    intro h1 h2
    exact absurd ⟨h1, h2⟩ hact

theorem allocatePower_discovered (s : GameState) (r : Rules) :
    (allocatePower s r).discoveredRecipes = s.discoveredRecipes := by
  simp only [allocatePower]
  split <;> rfl

theorem allocatePower_research (s : GameState) (r : Rules) :
    (allocatePower s r).research = s.research := by
  simp only [allocatePower]
  split <;> rfl

/-- C8: on every tick at most one recipe is discovered; a discovery requires
active research and spare energy at least the configured cost; and when the
first draw is below the discovery chance with at least one undiscovered
recipe, the discovered recipe is exactly the result of the weighted walk over
the undiscovered recipes in rule-table order (weights
`1 + proximityWeight x matching-inventory-items`, selection = second draw
scaled by the total weight). -/
theorem claim_C8_research_discovery (s : GameState) (r : Rules)
    (hpw : 0 ≤ r.research.proximityWeight) :
    ((simulateTick s r).discoveredRecipes = s.discoveredRecipes ∨
      ∃ rid, (simulateTick s r).discoveredRecipes = s.discoveredRecipes ++ [rid]) ∧
    (¬ (s.research.active = true ∧
        r.research.energyCost ≤ (allocatePower s r).energy.produced -
          (allocatePower s r).energy.consumed) →
      (simulateTick s r).discoveredRecipes = s.discoveredRecipes) ∧
    (s.research.active = true →
     r.research.energyCost ≤ (allocatePower s r).energy.produced -
       (allocatePower s r).energy.consumed →
     (rngNext s.rngSeed).2 < r.research.discoveryChance →
     r.recipes.filter (fun rc => !(s.discoveredRecipes.contains rc.id)) ≠ [] →
     ∃ rc, selectRecipe ((rngNext (rngNext s.rngSeed).1).2 *
         ((r.recipes.filter (fun rc => !(s.discoveredRecipes.contains rc.id))).map
           (fun rc => (rc, recipeWeight r (simulateTick s r).inventory rc))).foldl
           (fun sum p => sum + p.2) 0)
         ((r.recipes.filter (fun rc => !(s.discoveredRecipes.contains rc.id))).map
           (fun rc => (rc, recipeWeight r (simulateTick s r).inventory rc))) = some rc ∧
       (simulateTick s r).discoveredRecipes = s.discoveredRecipes ++ [rc.id]) := by
  have hA : (tickStage3 s r).discoveredRecipes = s.discoveredRecipes :=
    allocatePower_discovered s r
  have hR : (tickStage3 s r).research = s.research := allocatePower_research s r
  have hE : (tickStage3 s r).energy = (allocatePower s r).energy := rfl
  have hD : (simulateTick s r).discoveredRecipes =
      (researchPhase r (tickStage3 s r) s.rngSeed).1.discoveredRecipes := rfl
  have hI : (simulateTick s r).inventory = (tickStage3 s r).inventory :=
    researchPhase_inventory r (tickStage3 s r) s.rngSeed
  obtain ⟨p1, p2, p3⟩ := researchPhase_spec r (tickStage3 s r) s.rngSeed hpw
  simp only [hA, hR, hE] at p1 p2 p3
  refine ⟨?_, ?_, ?_⟩
  · rw [hD]
    exact p1
  · intro hc
    rw [hD]
    have := p2 hc
    rw [this, hA]
  · intro h1 h2 h3 h4
    rcases p3 h1 h2 h3 h4 with ⟨rc, hca, hcb⟩
    refine ⟨rc, ?_, by rw [hD, hcb]⟩
    rw [hI]
    exact hca

def c8State : GameState :=
  { baseState with rngSeed := 7, research := { active := true }, discoveredRecipes := [] }

theorem claim_C8_witness :
    (simulateTick c8State testRules).discoveredRecipes = ["planks"] := by
  have hroll : (rngNext c8State.rngSeed).2 < testRules.research.discoveryChance := by
    have hmix : mulberryMix (mulberryStep c8State.rngSeed) = 50271532 := by decide
    show ((mulberryMix (mulberryStep c8State.rngSeed) : Nat) : Rat) / ((U32 : Nat) : Rat) <
      testRules.research.discoveryChance
    rw [hmix]
    have hc : testRules.research.discoveryChance = (3 : Rat) / 20 := by
      show mkRat 3 20 = (3 : Rat) / 20
      rw [Rat.mkRat_eq_div]
      norm_num
    rw [hc]
    have hu : ((U32 : Nat) : Rat) = ((4294967296 : Nat) : Rat) := by norm_num [U32]
    rw [hu]
    norm_num
  obtain ⟨rc, hsel, hconc⟩ :=
    (claim_C8_research_discovery c8State testRules (by decide)).2.2 (by decide) (by decide)
      hroll (by decide)
  have hfil : testRules.recipes.filter
      (fun rc => !(c8State.discoveredRecipes.contains rc.id)) = [recipePlanks] := by decide
  rw [hfil] at hsel
  simp only [List.map_cons, List.map_nil, selectRecipe] at hsel
  rcases ite_eq_iff.1 hsel with ⟨hcond, heq⟩ | ⟨hcond, heq⟩
  · have hrc : rc = recipePlanks := (Option.some.inj heq).symm
    rw [hconc, hrc]
    decide
  · exact absurd heq (by simp)

/-! ### Per-item capacity invariant (C3) -/

/-- One inventory entry respects the per-item weight cap. -/
def invOk (r : Rules) (cap : Int) (inv : List (String × Int)) : Prop :=
  ∀ p ∈ inv, p.2 * getItemWeight p.1 r ≤ cap

/-- `inventory[item] x weight[item] <= inventorySpace` for every stored item. -/
def capInv (r : Rules) (s : GameState) : Prop :=
  invOk r s.inventorySpace s.inventory

def c3State : GameState :=
  { baseState with
    inventorySpace := 2
    inventory := [("wood", 2)]
    machines :=
      [ { id := "m1", recipeId := some "planks", internalBuffer := [("wood", 1)]
        , status := "working", enabled := true, spaceUsed := 4, energyConsumption := 2
        , x := 0, y := 0 } ] }

/-- C3 counterexample: a state satisfying the capacity invariant (wood 2,
weight 1, capacity 2, one machine holding 1 wood in its buffer) accepts
REMOVE_MACHINE, which returns the buffered wood to the inventory with no
capacity check; the result holds wood 3 with 3 x 1 > 2. -/
theorem claim_C3_counterexample :
    capInv testRules c3State ∧
    (removeMachine c3State testRules "m1").error = none ∧
    ¬ capInv testRules (removeMachine c3State testRules "m1").state := by
  refine ⟨?_, by decide, ?_⟩
  · unfold capInv invOk
    decide
  · intro h
    have hmem : (("wood", 3) : String × Int) ∈
        (removeMachine c3State testRules "m1").state.inventory := by decide
    have := h ("wood", 3) hmem
    revert this
    decide

theorem getItemWeight_pos (r : Rules) (hw : ∀ m ∈ r.materials, 1 ≤ m.weight) (k : String) :
    1 ≤ getItemWeight k r := by
  unfold getItemWeight
  cases hf : r.materials.find? (fun m => m.id == k) with
  | none => simp
  | some m => exact hw m (List.mem_of_find?_eq_some hf)

theorem maxStack_mul_le (r : Rules) (hw : ∀ m ∈ r.materials, 1 ≤ m.weight)
    (k : String) (cap v : Int) (h : v ≤ getMaxStack k cap r) :
    v * getItemWeight k r ≤ cap := by
  have hw1 : 1 ≤ getItemWeight k r := getItemWeight_pos r hw k
  have hpos : 0 < getItemWeight k r := by linarith
  unfold getMaxStack at h
  rw [Int.fdiv_eq_ediv _ (le_of_lt hpos)] at h
  exact (Int.le_ediv_iff_mul_le hpos).1 h

theorem invOk_jsSet_val {r : Rules} {cap : Int} {inv : List (String × Int)} {k : String}
    {v : Int} (h : invOk r cap inv) (hv : v * getItemWeight k r ≤ cap) :
    invOk r cap (jsSet inv k v) := by
  intro p hp
  rcases mem_jsSet hp with h' | h'
  · rw [h']; exact hv
  · exact h p h'

theorem invOk_jsDel {r : Rules} {cap : Int} {inv : List (String × Int)} (k : String)
    (h : invOk r cap inv) : invOk r cap (jsDel inv k) :=
  fun p hp => h p (mem_jsDel hp)

theorem invOk_mono {r : Rules} {cap cap' : Int} {inv : List (String × Int)}
    (h : invOk r cap inv) (hc : cap ≤ cap') : invOk r cap' inv :=
  fun p hp => le_trans (h p hp) hc

theorem invOk_jsGet {r : Rules} {cap : Int} {inv : List (String × Int)}
    (h : invOk r cap inv) (hsp : 0 ≤ cap) (k : String) :
    jsGet inv k * getItemWeight k r ≤ cap := by
  unfold jsGet
  cases hl : jsLookup inv k with
  | none => simpa using hsp
  | some v => exact h (k, v) (jsLookup_mem hl)

theorem invOk_sub_le {r : Rules} {cap : Int} {inv : List (String × Int)} {k : String}
    (hw : ∀ m ∈ r.materials, 1 ≤ m.weight) (h : invOk r cap inv) {v d : Int}
    (hl : jsLookup inv k = some v) (hd : 0 ≤ d) :
    (v - d) * getItemWeight k r ≤ cap := by
  have hmem := jsLookup_mem hl
  have hv : v * getItemWeight k r ≤ cap := h (k, v) hmem
  have hw1 : (0 : Int) ≤ getItemWeight k r := le_trans (by norm_num) (getItemWeight_pos r hw k)
  calc (v - d) * getItemWeight k r ≤ v * getItemWeight k r :=
        mul_le_mul_of_nonneg_right (by linarith) hw1
    _ ≤ cap := hv

theorem extractOne_invOk (r : Rules) (cap : Int) (hw : ∀ m ∈ r.materials, 1 ≤ m.weight)
    (inv : List (String × Int)) (node : ExtractionNode) (h : invOk r cap inv) :
    invOk r cap (extractOne r cap inv node) := by
  simp only [extractOne]
  by_cases hact : node.active = true
  · rw [if_pos hact]
    by_cases hadd : 0 < min node.rate
        (getMaxStack node.resourceType cap r - jsGet inv node.resourceType)
    · rw [if_pos hadd]
      apply invOk_jsSet_val h
      apply maxStack_mul_le r hw
      have := min_le_right node.rate
        (getMaxStack node.resourceType cap r - jsGet inv node.resourceType)
      linarith
    · rw [if_neg hadd]; exact h
  · rw [if_neg hact]; exact h

theorem extractionPhase_invOk (r : Rules) (cap : Int)
    (hw : ∀ m ∈ r.materials, 1 ≤ m.weight) (nodes : List ExtractionNode)
    (inv : List (String × Int)) (h : invOk r cap inv) :
    invOk r cap (extractionPhase r cap nodes inv) := by
  induction nodes generalizing inv with
  | nil => exact h
  | cons n rest ih =>
    exact ih _ (extractOne_invOk r cap hw inv n h)

theorem pullOne_invOk (r : Rules) (cap : Int) (hw : ∀ m ∈ r.materials, 1 ≤ m.weight)
    (acc : List (String × Int) × List (String × Int)) (input : String × Int)
    (h : invOk r cap acc.1) : invOk r cap (pullOne acc input).1 := by
  obtain ⟨inv, buffer⟩ := acc
  obtain ⟨k, needed⟩ := input
  simp only [pullOne]
  by_cases h1 : 0 < needed - jsGet buffer k
  · rw [if_pos h1]
    by_cases h2 : 0 < min (needed - jsGet buffer k) (jsGet inv k)
    · rw [if_pos h2]
      have hpos : 0 < jsGet inv k := lt_of_lt_of_le h2 (min_le_right _ _)
      cases hl : jsLookup inv k with
      | none =>
        exfalso
        have : jsGet inv k = 0 := by unfold jsGet; rw [hl]; rfl
        rw [this] at hpos
        exact lt_irrefl 0 hpos
      | some v =>
        have hv : jsGet inv k = v := by unfold jsGet; rw [hl]; rfl
        apply invOk_jsSet_val h
        rw [hv]
        exact invOk_sub_le hw h hl (le_of_lt (hv ▸ h2))
    · rw [if_neg h2]; exact h
  · rw [if_neg h1]; exact h

theorem pullPhase_invOk (r : Rules) (cap : Int) (hw : ∀ m ∈ r.materials, 1 ≤ m.weight)
    (inv buffer : List (String × Int)) (inputs : List (String × Int))
    (h : invOk r cap inv) : invOk r cap (pullPhase inv buffer inputs).1 := by
  unfold pullPhase
  induction inputs generalizing inv buffer with
  | nil => exact h
  | cons p rest ih =>
    simp only [List.foldl_cons]
    have hstep := pullOne_invOk r cap hw (inv, buffer) p h
    have : (pullOne (inv, buffer) p) = ((pullOne (inv, buffer) p).1, (pullOne (inv, buffer) p).2) := rfl
    rw [this]
    exact ih _ _ hstep

theorem addOutputs_invOk (r : Rules) (cap : Int) (hw : ∀ m ∈ r.materials, 1 ≤ m.weight)
    (outs : List (String × Int)) :
    ∀ inv, (outs.map Prod.fst).Nodup → canProduce inv cap r outs = true →
      invOk r cap inv → invOk r cap (addOutputs inv outs) := by
  induction outs with
  | nil => intro inv _ _ h; exact h
  | cons p rest ih =>
    obtain ⟨k, q⟩ := p
    intro inv hn hcan h
    simp only [List.map_cons, List.nodup_cons] at hn
    simp only [canProduce, List.all_cons, Bool.and_eq_true] at hcan
    have hq : q ≤ getMaxStack k cap r - jsGet inv k := of_decide_eq_true hcan.1
    have hstep : addOutputs inv ((k, q) :: rest) =
        addOutputs (jsSet inv k (jsGet inv k + q)) rest := rfl
    rw [hstep]
    apply ih (jsSet inv k (jsGet inv k + q)) hn.2
    · unfold canProduce
      rw [List.all_eq_true]
      intro p hp
      have hcan2 := hcan.2
      rw [List.all_eq_true] at hcan2
      have hppr := hcan2 p hp
      have hne : p.1 ≠ k := fun c => hn.1 (c ▸ List.mem_map_of_mem Prod.fst hp)
      rw [jsGet_jsSet, if_neg hne]
      exact hppr
    · apply invOk_jsSet_val h
      apply maxStack_mul_le r hw
      linarith

theorem completeStage_invOk (r : Rules) (cap : Int)
    (hw : ∀ m ∈ r.materials, 1 ≤ m.weight)
    (inv buffer : List (String × Int)) (recipe : Recipe)
    (hn : (recipe.outputs.map Prod.fst).Nodup) (h : invOk r cap inv) :
    invOk r cap (completeStage cap r inv buffer recipe).1 := by
  unfold completeStage
  by_cases h1 : bufferComplete buffer recipe.inputs = true
  · rw [if_pos h1]
    by_cases h2 : canProduce inv cap r recipe.outputs = true
    · rw [if_pos h2]
      exact addOutputs_invOk r cap hw recipe.outputs inv hn h2 h
    · rw [if_neg h2]; exact h
  · rw [if_neg h1]; exact h

theorem processMachine_invOk (r : Rules) (cap : Int)
    (hw : ∀ m ∈ r.materials, 1 ≤ m.weight)
    (hrec : ∀ rc ∈ r.recipes, (rc.outputs.map Prod.fst).Nodup)
    (unlocked : List String) (inv : List (String × Int)) (m : Machine)
    (h : invOk r cap inv) : invOk r cap (processMachine r cap unlocked inv m).1 := by
  unfold processMachine
  by_cases h1 : (!m.enabled || m.recipeId.isNone || m.status == "blocked") = true
  · rw [if_pos h1]; exact h
  · rw [if_neg h1]
    cases hf : r.recipes.find? (fun rc => m.recipeId == some rc.id) with
    | none => exact h
    | some recipe =>
      dsimp only
      by_cases h2 : (!(unlocked.contains recipe.id)) = true
      · rw [if_pos h2]; exact h
      · rw [if_neg h2]
        have hout := hrec recipe (List.mem_of_find?_eq_some hf)
        exact completeStage_invOk r cap hw _ _ recipe hout
          (pullPhase_invOk r cap hw inv m.internalBuffer recipe.inputs h)

theorem machinePhase_invOk (r : Rules) (cap : Int)
    (hw : ∀ m ∈ r.materials, 1 ≤ m.weight)
    (hrec : ∀ rc ∈ r.recipes, (rc.outputs.map Prod.fst).Nodup)
    (unlocked : List String) (ms : List Machine) :
    ∀ inv, invOk r cap inv → invOk r cap (machinePhase r cap unlocked inv ms).1 := by
  induction ms with
  | nil => intro inv h; exact h
  | cons m rest ih =>
    intro inv h
    simp only [machinePhase]
    exact ih _ (processMachine_invOk r cap hw hrec unlocked inv m h)

theorem allocatePower_inventory (s : GameState) (r : Rules) :
    (allocatePower s r).inventory = s.inventory := by
  simp only [allocatePower]
  split <;> rfl

theorem allocatePower_inventorySpace (s : GameState) (r : Rules) :
    (allocatePower s r).inventorySpace = s.inventorySpace := by
  simp only [allocatePower]
  split <;> rfl

theorem researchPhase_inventorySpace (r : Rules) (st : GameState) (seed : Nat) :
    (researchPhase r st seed).1.inventorySpace = st.inventorySpace := by
  simp only [researchPhase]
  repeat' split
  all_goals rfl

theorem simulateTick_capInv (s : GameState) (r : Rules)
    (hw : ∀ m ∈ r.materials, 1 ≤ m.weight)
    (hrec : ∀ rc ∈ r.recipes, (rc.outputs.map Prod.fst).Nodup)
    (h : capInv r s) : capInv r (simulateTick s r) := by
  have e1 : (allocatePower s r).inventory = s.inventory := allocatePower_inventory s r
  have e2 : (allocatePower s r).inventorySpace = s.inventorySpace :=
    allocatePower_inventorySpace s r
  have e3 : (simulateTick s r).inventory = (tickStage3 s r).inventory :=
    researchPhase_inventory r _ _
  have e4 : (simulateTick s r).inventorySpace = (tickStage3 s r).inventorySpace :=
    researchPhase_inventorySpace r _ _
  have e5 : (tickStage3 s r).inventory =
      (machinePhase r (tickStage2 s r).inventorySpace (tickStage2 s r).unlockedRecipes
        (tickStage2 s r).inventory (tickStage2 s r).machines).1 := rfl
  have e6 : (tickStage3 s r).inventorySpace = (allocatePower s r).inventorySpace := rfl
  have e7 : (tickStage2 s r).inventory =
      extractionPhase r (allocatePower s r).inventorySpace (allocatePower s r).extractionNodes
        (allocatePower s r).inventory := rfl
  have e8 : (tickStage2 s r).inventorySpace = (allocatePower s r).inventorySpace := rfl
  unfold capInv at h ⊢
  rw [e3, e4, e5, e6, e7, e8, e2, e1]
  apply machinePhase_invOk r s.inventorySpace hw hrec
  apply extractionPhase_invOk r s.inventorySpace hw
  exact h

theorem consumeOne_invOk (r : Rules) (cap : Int)
    (hw : ∀ m ∈ r.materials, 1 ≤ m.weight) (inv : List (String × Int)) (k : String)
    (hav : ¬ jsGet inv k < 1) (h : invOk r cap inv) : invOk r cap (consumeOne inv k) := by
  unfold consumeOne
  by_cases hz : jsGet inv k - 1 = 0
  · rw [if_pos hz]
    exact invOk_jsDel k h
  · rw [if_neg hz]
    cases hl : jsLookup inv k with
    | none =>
      exfalso
      have : jsGet inv k = 0 := by unfold jsGet; rw [hl]; rfl
      rw [this] at hav
      norm_num at hav
    | some v =>
      have hv : jsGet inv k = v := by unfold jsGet; rw [hl]; rfl
      apply invOk_jsSet_val h
      rw [hv]
      exact invOk_sub_le hw h hl (by norm_num)

theorem addMachine_capInv (s : GameState) (r : Rules) (x y : Option Int) (fid : String)
    (hw : ∀ m ∈ r.materials, 1 ≤ m.weight) (h : capInv r s) :
    capInv r (addMachine s r x y fid).state := by
  cases x with
  | none => exact h
  | some xv =>
    cases y with
    | none => exact h
    | some yv =>
      simp only [addMachine]
      by_cases h1 : (canPlaceAt s xv yv (getStructureSize r.machines.baseSpace)).valid = false
      · rw [if_pos h1]; exact h
      · rw [if_neg h1]
        by_cases h2 : jsGet s.inventory r.machines.itemId < 1
        · rw [if_pos h2]; exact h
        · rw [if_neg h2]
          exact consumeOne_invOk r s.inventorySpace hw s.inventory r.machines.itemId h2 h

theorem addGenerator_capInv (s : GameState) (r : Rules) (g : String) (x y : Option Int)
    (fid : String) (hw : ∀ m ∈ r.materials, 1 ≤ m.weight) (h : capInv r s) :
    capInv r (addGenerator s r g x y fid).state := by
  cases x with
  | none => exact h
  | some xv =>
    cases y with
    | none => exact h
    | some yv =>
      simp only [addGenerator]
      cases hf : r.generators.types.find? (fun t => t.id == g) with
      | none => exact h
      | some genConfig =>
        dsimp only
        by_cases h1 : (canPlaceAt s xv yv (getStructureSize genConfig.spaceCost)).valid = false
        · rw [if_pos h1]; exact h
        · rw [if_neg h1]
          by_cases h2 : jsGet s.inventory genConfig.itemId < 1
          · rw [if_pos h2]; exact h
          · rw [if_neg h2]
            exact consumeOne_invOk r s.inventorySpace hw s.inventory genConfig.itemId h2 h

theorem sellGoods_capInv (s : GameState) (r : Rules) (itemId : String) (q : Int)
    (hw : ∀ m ∈ r.materials, 1 ≤ m.weight) (hq : 0 ≤ q) (hsp : 0 ≤ s.inventorySpace)
    (h : capInv r s) : capInv r (sellGoods s r itemId q).state := by
  simp only [sellGoods]
  by_cases h1 : jsGet s.inventory itemId < q
  · rw [if_pos h1]; exact h
  · rw [if_neg h1]
    cases hf : r.materials.find? (fun m => m.id == itemId) with
    | none => exact h
    | some material =>
      dsimp only
      cases hl : jsLookup s.inventory itemId with
      | none =>
        dsimp only
        apply invOk_jsSet_val h
        simp
        exact hsp
      | some v =>
        dsimp only
        by_cases hz : v - q = 0
        · rw [if_pos hz]
          exact invOk_jsDel itemId h
        · rw [if_neg hz]
          apply invOk_jsSet_val h
          exact invOk_sub_le hw h hl hq

theorem buyInventorySpace_capInv (s : GameState) (r : Rules)
    (hup : 0 ≤ r.inventorySpace.upgradeAmount) (h : capInv r s) :
    capInv r (buyInventorySpace s r).state := by
  simp only [buyInventorySpace]
  split
  · exact h
  · exact invOk_mono h (by dsimp only; linarith)

theorem removeGenerator_inv_eq (s : GameState) (r : Rules) (gid : String) :
    (removeGenerator s r gid).state.inventory = s.inventory ∧
    (removeGenerator s r gid).state.inventorySpace = s.inventorySpace := by
  simp only [removeGenerator]
  repeat' split
  all_goals exact ⟨rfl, rfl⟩

theorem buyFloorSpace_inv_eq (s : GameState) (r : Rules) :
    (buyFloorSpace s r).state.inventory = s.inventory ∧
    (buyFloorSpace s r).state.inventorySpace = s.inventorySpace := by
  simp only [buyFloorSpace]
  repeat' split
  all_goals exact ⟨rfl, rfl⟩

theorem toggleResearch_inv_eq (s : GameState) (r : Rules) (b : Bool) :
    (toggleResearch s r b).state.inventory = s.inventory ∧
    (toggleResearch s r b).state.inventorySpace = s.inventorySpace :=
  ⟨rfl, rfl⟩

theorem unlockRecipe_inv_eq (s : GameState) (r : Rules) (rid : String) :
    (unlockRecipe s r rid).state.inventory = s.inventory ∧
    (unlockRecipe s r rid).state.inventorySpace = s.inventorySpace := by
  simp only [unlockRecipe]
  repeat' split
  all_goals exact ⟨rfl, rfl⟩

theorem unblockMachine_inv_eq (s : GameState) (r : Rules) (mid : String) :
    (unblockMachine s r mid).state.inventory = s.inventory ∧
    (unblockMachine s r mid).state.inventorySpace = s.inventorySpace := by
  simp only [unblockMachine]
  repeat' split
  all_goals exact ⟨rfl, rfl⟩

theorem toggleMachine_inv_eq (s : GameState) (r : Rules) (mid : String) :
    (toggleMachine s r mid).state.inventory = s.inventory ∧
    (toggleMachine s r mid).state.inventorySpace = s.inventorySpace := by
  simp only [toggleMachine]
  repeat' split
  all_goals exact ⟨rfl, rfl⟩

/-- The commands covered by the amended capacity claim: every command except
REMOVE_MACHINE and ASSIGN_RECIPE (which return machine buffers to the
inventory without any capacity check), with nonnegative sell quantities. -/
def capPreserving : Command → Prop
  | Command.REMOVE_MACHINE _ => False
  | Command.ASSIGN_RECIPE _ _ => False
  | Command.SELL_GOODS _ q => 0 ≤ q
  | _ => True

/-- C3 (amended): for positive material weights, duplicate-free recipe
outputs, a nonnegative storage upgrade amount and a nonnegative capacity, the
per-item capacity invariant `inventory[item] x weight[item] <= inventorySpace`
is preserved by every tick and by every command other than REMOVE_MACHINE and
ASSIGN_RECIPE (with nonnegative sell quantity); those two return a machine's
buffered inputs to the inventory without a capacity check and can break the
invariant. -/
theorem claim_C3_capacity_amended (s : GameState) (r : Rules) (a : Command)
    (ids : Nat → String) (cursor : Nat)
    (hw : ∀ m ∈ r.materials, 1 ≤ m.weight)
    (hrec : ∀ rc ∈ r.recipes, (rc.outputs.map Prod.fst).Nodup)
    (hup : 0 ≤ r.inventorySpace.upgradeAmount)
    (hsp : 0 ≤ s.inventorySpace)
    (ha : capPreserving a)
    (hinv : capInv r s) : capInv r (engine s r a ids cursor).1.state := by
  cases a with
  | SIMULATE => exact simulateTick_capInv s r hw hrec hinv
  | ADD_MACHINE x y => exact addMachine_capInv s r x y _ hw hinv
  | REMOVE_MACHINE mid => exact ha.elim
  | ASSIGN_RECIPE mid rid => exact ha.elim
  | ADD_GENERATOR g x y => exact addGenerator_capInv s r g x y _ hw hinv
  | REMOVE_GENERATOR gid =>
    have e := removeGenerator_inv_eq s r gid
    show capInv r (removeGenerator s r gid).state
    unfold capInv
    rw [e.1, e.2]
    exact hinv
  | BUY_FLOOR_SPACE =>
    have e := buyFloorSpace_inv_eq s r
    show capInv r (buyFloorSpace s r).state
    unfold capInv
    rw [e.1, e.2]
    exact hinv
  | SELL_GOODS itemId q => exact sellGoods_capInv s r itemId q hw ha hsp hinv
  | TOGGLE_RESEARCH b =>
    have e := toggleResearch_inv_eq s r b
    show capInv r (toggleResearch s r b).state
    unfold capInv
    rw [e.1, e.2]
    exact hinv
  | UNLOCK_RECIPE rid =>
    have e := unlockRecipe_inv_eq s r rid
    show capInv r (unlockRecipe s r rid).state
    unfold capInv
    rw [e.1, e.2]
    exact hinv
  | UNBLOCK_MACHINE mid =>
    have e := unblockMachine_inv_eq s r mid
    show capInv r (unblockMachine s r mid).state
    unfold capInv
    rw [e.1, e.2]
    exact hinv
  | TOGGLE_MACHINE mid =>
    have e := toggleMachine_inv_eq s r mid
    show capInv r (toggleMachine s r mid).state
    unfold capInv
    rw [e.1, e.2]
    exact hinv
  | BUY_INVENTORY_SPACE => exact buyInventorySpace_capInv s r hup hinv
  | UNKNOWN tag => exact hinv

theorem claim_C3_witness :
    capInv testRules (engine baseState testRules Command.SIMULATE idsA 0).1.state :=
  claim_C3_capacity_amended baseState testRules Command.SIMULATE idsA 0
    (by decide) (by decide) (by decide) (by decide) trivial
    (by unfold capInv invOk; decide)

/-! ### Grid placement invariant (C6) -/

/-- Standard axis-aligned square overlap: the candidate square at `(x, y)`
with side `size` intersects placement `p`. -/
def squaresOverlap (x y size : Int) (p : Placement) : Prop :=
  ¬ (x + size ≤ p.x ∨ p.x + p.size ≤ x ∨ y + size ≤ p.y ∨ p.y + p.size ≤ y)

def placementOk (fs : FloorSpace) (p : Placement) : Prop :=
  0 ≤ p.x ∧ 0 ≤ p.y ∧ p.x + p.size ≤ fs.width ∧ p.y + p.size ≤ fs.height

def disjointPlacements (p q : Placement) : Prop :=
  p.x + p.size ≤ q.x ∨ q.x + q.size ≤ p.x ∨ p.y + p.size ≤ q.y ∨ q.y + q.size ≤ p.y

/-- All footprints in bounds and pairwise disjoint. -/
def floorOk (s : GameState) : Prop :=
  (∀ p ∈ s.floorSpace.placements, placementOk s.floorSpace p) ∧
  s.floorSpace.placements.Pairwise disjointPlacements

theorem isWithinBounds_iff (x y size w h : Int) :
    isWithinBounds x y size w h = true ↔
    (0 ≤ x ∧ 0 ≤ y ∧ x + size ≤ w ∧ y + size ≤ h) := by
  simp [isWithinBounds, and_assoc]

theorem overlapTest_iff (x y size : Int) (p : Placement) :
    overlapTest x y size p = true ↔ squaresOverlap x y size p := by
  simp [overlapTest, squaresOverlap]
  tauto

theorem isColliding_iff (x y size : Int) (ps : List Placement) :
    isColliding x y size ps = true ↔ ∃ p ∈ ps, squaresOverlap x y size p := by
  unfold isColliding
  rw [List.any_eq_true]
  constructor
  · rintro ⟨p, hp, ho⟩
    exact ⟨p, hp, (overlapTest_iff x y size p).1 ho⟩
  · rintro ⟨p, hp, ho⟩
    exact ⟨p, hp, (overlapTest_iff x y size p).2 ho⟩

theorem canPlaceAt_valid (s : GameState) (x y size : Int)
    (h : ¬ (canPlaceAt s x y size).valid = false) :
    (0 ≤ x ∧ 0 ≤ y ∧ x + size ≤ s.floorSpace.width ∧ y + size ≤ s.floorSpace.height) ∧
    ∀ p ∈ s.floorSpace.placements, ¬ squaresOverlap x y size p := by
  unfold canPlaceAt at h
  by_cases hb : isWithinBounds x y size s.floorSpace.width s.floorSpace.height = false
  · rw [if_pos hb] at h
    exact absurd rfl h
  · rw [if_neg hb] at h
    by_cases hc : isColliding x y size s.floorSpace.placements = true
    · rw [if_pos hc] at h
      exact absurd rfl h
    · refine ⟨(isWithinBounds_iff x y size _ _).1 ?_, ?_⟩
      · revert hb
        cases isWithinBounds x y size s.floorSpace.width s.floorSpace.height <;> simp
      · intro p hp ho
        exact hc ((isColliding_iff x y size _).2 ⟨p, hp, ho⟩)

theorem removeAt_sublist {α : Type} (l : List α) (f : α → Bool) :
    (removeAt l f).Sublist l := by
  unfold removeAt
  cases h : l.findIdx? f with
  | none => exact List.Sublist.refl l
  | some i => exact List.eraseIdx_sublist l i

theorem floorOk_drop (s : GameState) (f : Placement → Bool) (h : floorOk s) :
    (∀ p ∈ removeAt s.floorSpace.placements f, placementOk s.floorSpace p) ∧
    (removeAt s.floorSpace.placements f).Pairwise disjointPlacements :=
  ⟨fun p hp => h.1 p ((removeAt_sublist _ f).subset hp),
   h.2.sublist (removeAt_sublist _ f)⟩

theorem floorOk_extend (s : GameState) (x y size : Int) (pid kind : String)
    (h : floorOk s) (hv : ¬ (canPlaceAt s x y size).valid = false) :
    (∀ p ∈ s.floorSpace.placements ++ [(⟨pid, x, y, size, kind⟩ : Placement)],
      placementOk s.floorSpace p) ∧
    (s.floorSpace.placements ++ [(⟨pid, x, y, size, kind⟩ : Placement)]).Pairwise
      disjointPlacements := by
  obtain ⟨hbounds, hdisj⟩ := canPlaceAt_valid s x y size hv
  constructor
  · intro p hp
    rcases List.mem_append.1 hp with hp | hp
    · exact h.1 p hp
    · simp at hp
      subst hp
      exact ⟨hbounds.1, hbounds.2.1, hbounds.2.2.1, hbounds.2.2.2⟩
  · rw [List.pairwise_append]
    refine ⟨h.2, by simp, ?_⟩
    intro a ha b hb
    simp at hb
    subst hb
    have hno := hdisj a ha
    unfold squaresOverlap at hno
    rw [not_not] at hno
    unfold disjointPlacements
    dsimp only
    tauto

theorem addMachine_floorOk (s : GameState) (r : Rules) (x y : Option Int) (fid : String)
    (h : floorOk s) : floorOk (addMachine s r x y fid).state := by
  cases x with
  | none => exact h
  | some xv =>
    cases y with
    | none => exact h
    | some yv =>
      simp only [addMachine]
      by_cases h1 : (canPlaceAt s xv yv (getStructureSize r.machines.baseSpace)).valid = false
      · rw [if_pos h1]; exact h
      · rw [if_neg h1]
        by_cases h2 : jsGet s.inventory r.machines.itemId < 1
        · rw [if_pos h2]; exact h
        · rw [if_neg h2]
          exact floorOk_extend s xv yv _ fid "machine" h h1

theorem addGenerator_floorOk (s : GameState) (r : Rules) (g : String) (x y : Option Int)
    (fid : String) (h : floorOk s) : floorOk (addGenerator s r g x y fid).state := by
  cases x with
  | none => exact h
  | some xv =>
    cases y with
    | none => exact h
    | some yv =>
      simp only [addGenerator]
      cases hf : r.generators.types.find? (fun t => t.id == g) with
      | none => exact h
      | some genConfig =>
        dsimp only
        by_cases h1 : (canPlaceAt s xv yv (getStructureSize genConfig.spaceCost)).valid = false
        · rw [if_pos h1]; exact h
        · rw [if_neg h1]
          by_cases h2 : jsGet s.inventory genConfig.itemId < 1
          · rw [if_pos h2]; exact h
          · rw [if_neg h2]
            exact floorOk_extend s xv yv _ fid "generator" h h1

theorem removeMachine_floorOk (s : GameState) (r : Rules) (mid : String)
    (h : floorOk s) : floorOk (removeMachine s r mid).state := by
  simp only [removeMachine]
  cases hf : s.machines.find? (fun m => m.id == mid) with
  | none => exact h
  | some machine =>
    dsimp only
    exact floorOk_drop s _ h

theorem removeGenerator_floorOk (s : GameState) (r : Rules) (gid : String)
    (h : floorOk s) : floorOk (removeGenerator s r gid).state := by
  simp only [removeGenerator]
  cases hf : s.generators.find? (fun g => g.id == gid) with
  | none => exact h
  | some generator =>
    dsimp only
    exact floorOk_drop s _ h

theorem expansionLoop_chunk_nonneg (fuel : Nat) :
    ∀ (w h c t : Int), 0 ≤ c → 0 ≤ (expansionLoop fuel w h c t).1 := by
  induction fuel with
  | zero => intro w h c t hc; exact hc
  | succ n ih =>
    intro w h c t hc
    simp only [expansionLoop]
    by_cases hcond : t ≤ w ∧ t ≤ h
    · rw [if_pos hcond]
      exact ih w h (c * 2) (t * 2) (by linarith)
    · rw [if_neg hcond]
      exact hc

theorem buyFloorSpace_floorOk (s : GameState) (r : Rules)
    (hchunk : 0 ≤ r.floorSpace.initialChunkSize) (h : floorOk s) :
    floorOk (buyFloorSpace s r).state := by
  have hc : 0 ≤ (getNextExpansionChunk s r).chunkSize :=
    expansionLoop_chunk_nonneg _ _ _ _ _ hchunk
  have hwmono : s.floorSpace.width ≤ (getNextExpansionChunk s r).newWidth := by
    have hifw : (getNextExpansionChunk s r).newWidth =
        if (getNextExpansionChunk s r).expandWidth = true then
          s.floorSpace.width + (getNextExpansionChunk s r).chunkSize
        else s.floorSpace.width := rfl
    rw [hifw]
    split
    · linarith
    · exact le_refl _
  have hhmono : s.floorSpace.height ≤ (getNextExpansionChunk s r).newHeight := by
    have hifh : (getNextExpansionChunk s r).newHeight =
        if (getNextExpansionChunk s r).expandWidth = true then s.floorSpace.height
        else s.floorSpace.height + (getNextExpansionChunk s r).chunkSize := rfl
    rw [hifh]
    split
    · exact le_refl _
    · linarith
  simp only [buyFloorSpace]
  split
  · exact h
  · constructor
    · intro p hp
      have := h.1 p hp
      exact ⟨this.1, this.2.1, by dsimp only; linarith [this.2.2.1],
        by dsimp only; linarith [this.2.2.2]⟩
    · exact h.2

theorem allocatePower_floorSpace (s : GameState) (r : Rules) :
    (allocatePower s r).floorSpace = s.floorSpace := by
  simp only [allocatePower]
  split <;> rfl

theorem researchPhase_floorSpace (r : Rules) (st : GameState) (seed : Nat) :
    (researchPhase r st seed).1.floorSpace = st.floorSpace := by
  simp only [researchPhase]
  repeat' split
  all_goals rfl

theorem simulateTick_floor (s : GameState) (r : Rules) :
    (simulateTick s r).floorSpace = s.floorSpace := by
  have e : (simulateTick s r).floorSpace =
      (researchPhase r (tickStage3 s r) s.rngSeed).1.floorSpace := rfl
  rw [e, researchPhase_floorSpace]
  exact allocatePower_floorSpace s r

theorem assignRecipe_floor (s : GameState) (r : Rules) (mid : String) (rid : Option String) :
    (assignRecipe s r mid rid).state.floorSpace = s.floorSpace := by
  simp only [assignRecipe]
  repeat' split
  all_goals rfl

theorem sellGoods_floor (s : GameState) (r : Rules) (itemId : String) (q : Int) :
    (sellGoods s r itemId q).state.floorSpace = s.floorSpace := by
  simp only [sellGoods]
  repeat' split
  all_goals rfl

theorem unlockRecipe_floor (s : GameState) (r : Rules) (rid : String) :
    (unlockRecipe s r rid).state.floorSpace = s.floorSpace := by
  simp only [unlockRecipe]
  repeat' split
  all_goals rfl

theorem unblockMachine_floor (s : GameState) (r : Rules) (mid : String) :
    (unblockMachine s r mid).state.floorSpace = s.floorSpace := by
  simp only [unblockMachine]
  repeat' split
  all_goals rfl

theorem toggleMachine_floor (s : GameState) (r : Rules) (mid : String) :
    (toggleMachine s r mid).state.floorSpace = s.floorSpace := by
  simp only [toggleMachine]
  repeat' split
  all_goals rfl

theorem buyInventorySpace_floor (s : GameState) (r : Rules) :
    (buyInventorySpace s r).state.floorSpace = s.floorSpace := by
  simp only [buyInventorySpace]
  repeat' split
  all_goals rfl

theorem engine_floorOk (s : GameState) (r : Rules) (a : Command) (ids : Nat → String)
    (cursor : Nat) (hchunk : 0 ≤ r.floorSpace.initialChunkSize) (h : floorOk s) :
    floorOk (engine s r a ids cursor).1.state := by
  cases a with
  | SIMULATE =>
    show floorOk (simulateTick s r)
    unfold floorOk
    rw [simulateTick_floor s r]
    exact h
  | ADD_MACHINE x y => exact addMachine_floorOk s r x y _ h
  | REMOVE_MACHINE mid => exact removeMachine_floorOk s r mid h
  | ASSIGN_RECIPE mid rid =>
    show floorOk (assignRecipe s r mid rid).state
    unfold floorOk
    rw [assignRecipe_floor s r mid rid]
    exact h
  | ADD_GENERATOR g x y => exact addGenerator_floorOk s r g x y _ h
  | REMOVE_GENERATOR gid => exact removeGenerator_floorOk s r gid h
  | BUY_FLOOR_SPACE => exact buyFloorSpace_floorOk s r hchunk h
  | SELL_GOODS itemId q =>
    show floorOk (sellGoods s r itemId q).state
    unfold floorOk
    rw [sellGoods_floor s r itemId q]
    exact h
  | TOGGLE_RESEARCH b => exact h
  | UNLOCK_RECIPE rid =>
    show floorOk (unlockRecipe s r rid).state
    unfold floorOk
    rw [unlockRecipe_floor s r rid]
    exact h
  | UNBLOCK_MACHINE mid =>
    show floorOk (unblockMachine s r mid).state
    unfold floorOk
    rw [unblockMachine_floor s r mid]
    exact h
  | TOGGLE_MACHINE mid =>
    show floorOk (toggleMachine s r mid).state
    unfold floorOk
    rw [toggleMachine_floor s r mid]
    exact h
  | BUY_INVENTORY_SPACE =>
    show floorOk (buyInventorySpace s r).state
    unfold floorOk
    rw [buyInventorySpace_floor s r]
    exact h
  | UNKNOWN tag => exact h

/-- C6: from any state with in-bounds, pairwise-disjoint placements, every
state reachable by ticks and commands keeps all footprints inside
[0,width)x[0,height) and pairwise disjoint (the floor only grows, with a
nonnegative configured chunk); and canPlaceAt reports the out-of-bounds
failure exactly when the footprint exits the floor, and the collision failure
exactly when the footprint is in bounds and its square intersects some
existing placement under the standard axis-aligned overlap test. -/
theorem claim_C6_placement_invariant (r : Rules) (ids : Nat → String) (s : GameState)
    (cursor : Nat) (cmds : List Command)
    (hchunk : 0 ≤ r.floorSpace.initialChunkSize) (h0 : floorOk s) :
    floorOk (engineRun r ids s cursor cmds) ∧
    ∀ (st : GameState) (x y size : Int),
      ((canPlaceAt st x y size).error = some "Position out of bounds" ↔
        ¬ (0 ≤ x ∧ 0 ≤ y ∧ x + size ≤ st.floorSpace.width ∧
            y + size ≤ st.floorSpace.height)) ∧
      ((canPlaceAt st x y size).error = some "Position collides with existing structure" ↔
        ((0 ≤ x ∧ 0 ≤ y ∧ x + size ≤ st.floorSpace.width ∧
            y + size ≤ st.floorSpace.height) ∧
          ∃ p ∈ st.floorSpace.placements, squaresOverlap x y size p)) := by
  constructor
  · induction cmds generalizing s cursor with
    | nil => exact h0
    | cons a rest ih =>
      simp only [engineRun]
      exact ih _ _ (engine_floorOk s r a ids cursor hchunk h0)
  · intro st x y size
    unfold canPlaceAt
    by_cases hb : isWithinBounds x y size st.floorSpace.width st.floorSpace.height = false
    · rw [if_pos hb]
      have hnb : ¬ (0 ≤ x ∧ 0 ≤ y ∧ x + size ≤ st.floorSpace.width ∧
          y + size ≤ st.floorSpace.height) := by
        intro hbnd
        rw [(isWithinBounds_iff x y size _ _).2 hbnd] at hb
        simp at hb
      refine ⟨⟨fun _ => hnb, fun _ => rfl⟩, ⟨fun hctr => ?_, fun hctr => absurd hctr.1 hnb⟩⟩
      simp at hctr
    · rw [if_neg hb]
      have hbt : isWithinBounds x y size st.floorSpace.width st.floorSpace.height = true := by
        revert hb
        cases isWithinBounds x y size st.floorSpace.width st.floorSpace.height <;> simp
      have hbnd := (isWithinBounds_iff x y size _ _).1 hbt
      by_cases hc : isColliding x y size st.floorSpace.placements = true
      · rw [if_pos hc]
        refine ⟨⟨fun hctr => ?_, fun hctr => absurd hbnd hctr⟩,
          ⟨fun _ => ⟨hbnd, (isColliding_iff x y size _).1 hc⟩, fun _ => rfl⟩⟩
        simp at hctr
      · rw [if_neg hc]
        refine ⟨⟨fun hctr => ?_, fun hctr => absurd hbnd hctr⟩,
          ⟨fun hctr => ?_, fun hctr => absurd ((isColliding_iff x y size _).2 hctr.2) hc⟩⟩
        · simp at hctr
        · simp at hctr

theorem claim_C6_witness :
    floorOk (engineRun testRules idsA c1State 0 [Command.ADD_MACHINE (some 0) (some 0)]) ∧
    (canPlaceAt (engineRun testRules idsA c1State 0 [Command.ADD_MACHINE (some 0) (some 0)])
        1 1 2).error = some "Position collides with existing structure" := by
  have hmain := claim_C6_placement_invariant testRules idsA c1State 0
    [Command.ADD_MACHINE (some 0) (some 0)] (by decide)
    ⟨fun p hp => by simp [c1State, baseState] at hp, List.Pairwise.nil⟩
  refine ⟨hmain.1, ?_⟩
  apply (hmain.2 _ 1 1 2).2.2
  refine ⟨by decide, ⟨{ id := "a", x := 0, y := 0, size := 2, kind := "machine" }, by decide, ?_⟩⟩
  unfold squaresOverlap
  decide
